import Mathlib

/-!
Shallow embedding of `src/services/agent-ia-actions.js` (interflow_node):
the AgentIA system-tool layer — name→ID cache with TTL, name resolver,
tool generators, tool dispatch, and the appointment/availability engine.

Modelling conventions:
* JavaScript object values that flow through the untyped resolver are
  modelled by `JVal` (string leaves, nested objects, null/undefined as
  `nullv`; absent properties are `Option.none`).
* `HH:MM` time strings are modelled by their parsed form `HHMM`
  (hours/minutes); `timeToMinutes`/`minutesToTime` are the source's
  converters on that form.  String formatting of a time is `hhmmStr`.
* `Date.now()` and dates are passed as explicit `Nat` arguments
  (milliseconds for cache timestamps, days since the epoch for calendar
  dates; the weekday of day `d` is `(d + 4) % 7`, matching
  `new Date(dateT12:00:00Z).getDay()`).
* Supabase tables are lists in a `Database` record; the queries the code
  issues are re-played as list filters.  Promise rejections ("storage
  failures") are injected through the database's `fail*` flags and are
  propagated as `Except.error` exactly where the source would `throw`.
-/

namespace AgentIA

/-- A JavaScript value as seen by the untyped name-resolution code:
a string, a nested object, or null/undefined. -/
inductive JVal where
  | s (str : String)
  | o (fields : List (String × JVal))
  | nullv

/-- JavaScript truthiness for the values `JVal` models:
empty strings and null/undefined are falsy, objects are truthy. -/
def truthy : JVal → Bool
  | .s str => str ≠ ""
  | .o _ => true
  | .nullv => false

/-- Truthiness of a possibly-absent property (`undefined` is falsy). -/
def truthyO : Option JVal → Bool
  | none => false
  | some v => truthy v

/-- Truthiness of an optional string argument. -/
def truthyS : Option String → Bool
  | none => false
  | some s => s ≠ ""

/-- Property access `v[key]` on a `JVal` (non-objects have no properties). -/
def getProp : JVal → String → Option JVal
  | .o fields, key => fields.lookup key
  | _, _ => none

/-- ASCII lower-casing of a string, character by character
(models `String.prototype.toLowerCase` on the ASCII inputs this code sees). -/
def strToLower (s : String) : String :=
  String.mk (s.data.map Char.toLower)

/-- Splits a list of characters at a separator (used to model
`nameKey.split(".")` of the nested-path walk). -/
def splitChars (sep : Char) : List Char → List String
  | [] => [""]
  | c :: rest =>
    match splitChars sep rest with
    | [] => [""]
    | part :: parts =>
      if c = sep then "" :: part :: parts
      else String.mk (c :: part.data) :: parts

/-- `key.split(sep)` for one-character separators. -/
def splitOnSep (s : String) (sep : Char) : List String :=
  splitChars sep s.data

/-- The nested-path walk of `createNameToIdMap`:
`let nested = item; for (key of keys) { if (!nested) break; nested = nested[key]; }`.
A falsy intermediate value is kept (the source breaks and returns it),
which the fold reproduces because falsy values are absorbing here. -/
def walkPath (item : JVal) (keys : List String) : Option JVal :=
  keys.foldl
    (fun nested key =>
      match nested with
      | none => none
      | some v => if ¬ truthy v then nested else getProp v key)
    (some item)

/-- Resolution of `item[key]`, falling back to the dot-path walk when the
direct access is falsy and the key contains a dot — the body of
`createNameToIdMap`'s name/id extraction. -/
def resolveField (item : JVal) (key : String) : Option JVal :=
  let direct := getProp item key
  if ¬ truthyO direct ∧ key.data.contains '.' then
    walkPath item (splitOnSep key '.')
  else direct

/-- The mutable map object `map` of `createNameToIdMap`: an insertion-ordered
string-keyed object, `map[k] = v` updating in place or appending. -/
abbrev NameMap := List (String × JVal)

/-- `map[k] = v` on a JavaScript object: replace the value of an existing
key, else append the pair. -/
def setKey : NameMap → String → JVal → NameMap
  | [], k, v => [(k, v)]
  | (k', v') :: rest, k, v =>
    if k' = k then (k', v) :: rest else (k', v') :: setKey rest k v

/-- `map[k]` lookup. -/
def lookupKey : NameMap → String → Option JVal
  | [], _ => none
  | (k', v') :: rest, k => if k' = k then some v' else lookupKey rest k

/-- A JavaScript runtime error (carries the message the source interpolates
into its error envelopes). -/
structure JsErr where
  message : String

/-- `name.toLowerCase()` on a resolved field value: throws a `TypeError`
unless the value is a string. -/
def jsToLowerCase : JVal → Except JsErr String
  | .s str => .ok (strToLower str)
  | _ => .error ⟨"toLowerCase is not a function"⟩

/-- The `for (const item of items)` loop of `createNameToIdMap`: skips falsy
items, resolves name and id (with nested-path fallback), skips items where
either is falsy, otherwise stores `map[name.toLowerCase()] = id`. -/
def buildMapLoop (nameKey idKey : String) : List JVal → NameMap → Except JsErr NameMap
  | [], map => .ok map
  | item :: rest, map =>
    if ¬ truthy item then buildMapLoop nameKey idKey rest map
    else
      if truthyO (resolveField item nameKey) ∧ truthyO (resolveField item idKey) then
        match resolveField item nameKey, resolveField item idKey with
        | some nv, some iv =>
          match jsToLowerCase nv with
          | .error e => .error e
          | .ok lowered => buildMapLoop nameKey idKey rest (setKey map lowered iv)
        | _, _ => buildMapLoop nameKey idKey rest map
      else buildMapLoop nameKey idKey rest map

/-- `createNameToIdMap(items, nameKey, idKey)` — `items` may be
null/undefined (`none`) or not an array, in which case the empty map is
returned immediately. -/
def createNameToIdMap (items : Option (List JVal)) (nameKey : String) (idKey : String) :
    Except JsErr NameMap :=
  match items with
  | none => .ok []
  | some l => buildMapLoop nameKey idKey l []

/-- Lower-case ASCII letters and digits — the characters the regex
`[^a-z0-9]` of `transformToolName` leaves alone. -/
def isLowerAlnum (c : Char) : Bool :=
  (97 ≤ c.toNat ∧ c.toNat ≤ 122) ∨ (48 ≤ c.toNat ∧ c.toNat ≤ 57)

/-- `.replace(/[^a-z0-9]/g, "_")`. -/
def replaceNonAlnum (l : List Char) : List Char :=
  l.map (fun c => if isLowerAlnum c then c else '_')

/-- `.replace(/_+/g, "_")`: collapse each run of underscores to one. -/
def collapseUnd : List Char → List Char
  | [] => []
  | [c] => [c]
  | c1 :: c2 :: rest =>
    if c1 = '_' ∧ c2 = '_' then collapseUnd (c2 :: rest)
    else c1 :: collapseUnd (c2 :: rest)

/-- Drop a single leading underscore. -/
def dropOneLeadUnd : List Char → List Char
  | [] => []
  | c :: rest => if c = '_' then rest else c :: rest

/-- `.replace(/^_|_$/g, "")`: drop one leading and one trailing underscore
(the trailing one by way of the reversed list). -/
def trimEdgeUnd (l : List Char) : List Char :=
  (dropOneLeadUnd (dropOneLeadUnd l).reverse).reverse

/-- `transformToolName`: lower-case, replace non-alphanumerics with `_`,
collapse underscore runs, trim edge underscores; empty/falsy input gives "". -/
def transformToolName (name : String) : String :=
  if name = "" then ""
  else
    String.mk (trimEdgeUnd (collapseUnd (replaceNonAlnum (name.data.map Char.toLower))))

/-- The tool-name pattern `^[a-zA-Z0-9_-]+$` quoted by the spec. -/
def matchesSlugPattern (s : String) : Bool :=
  ¬ s.data.isEmpty ∧ s.data.all (fun c =>
    (65 ≤ c.toNat ∧ c.toNat ≤ 90) ∨ (97 ≤ c.toNat ∧ c.toNat ≤ 122) ∨
    (48 ≤ c.toNat ∧ c.toNat ≤ 57) ∨ c = '_' ∨ c = '-')

/-- No two adjacent underscores. -/
def noDoubleUnd : List Char → Bool
  | [] => true
  | [_] => true
  | c1 :: c2 :: rest => ¬ (c1 = '_' ∧ c2 = '_') ∧ noDoubleUnd (c2 :: rest)

/-- The exact fixed points of `transformToolName`: lower-case alphanumerics
and underscores, with no doubled underscore and no underscore at either
edge (the empty string qualifies vacuously). -/
def slugFixedForm (s : String) : Bool :=
  s.data.all (fun c => isLowerAlnum c ∨ c = '_') ∧
  noDoubleUnd s.data ∧
  s.data.head? ≠ some '_' ∧ s.data.getLast? ≠ some '_'

/-- A clock time `HH:MM` in its parsed form.  The source passes such times
as strings; formatting is `hhmmStr` and parsing is implicit in this type. -/
structure HHMM where
  hours : Nat
  minutes : Nat
deriving DecidableEq

/-- `timeToMinutes`: minutes since midnight of an `HH:MM` time; the source
guards `if (!timeStr) return 0` for null/undefined/empty inputs, which
`none` models. -/
def timeToMinutes : Option HHMM → Nat
  | none => 0
  | some t => t.hours * 60 + t.minutes

/-- `minutesToTime`: `HH:MM` form of minutes since midnight. -/
def minutesToTime (minutes : Nat) : HHMM :=
  ⟨minutes / 60, minutes % 60⟩

/-- Two-digit zero padding (`String(x).padStart(2, "0")`). -/
def pad2 (n : Nat) : String :=
  if n < 10 then "0" ++ toString n else toString n

/-- The string rendering of an `HHMM` time. -/
def hhmmStr (t : HHMM) : String :=
  pad2 t.hours ++ ":" ++ pad2 t.minutes

/-- `list.join(", ")` over rendered times. -/
def joinTimes : List HHMM → String
  | [] => ""
  | [t] => hhmmStr t
  | t :: rest => hhmmStr t ++ ", " ++ joinTimes rest

/-! ## The name→ID cache (`nameToIdCache`, `getCachedMap`, `setCachedMap`) -/

/-- `CACHE_EXPIRATION`: one hour in milliseconds. -/
def CACHE_EXPIRATION : Nat := 60 * 60 * 1000

/-- The four resource types the cache partitions by. -/
inductive CacheType where
  | services
  | providers
  | teams
  | flows
deriving DecidableEq

/-- One cached entry: the stored mapping and the `Date.now()` at store time. -/
structure CacheEntry where
  data : NameMap
  timestamp : Nat

/-- One organization's cache bucket: services and providers are keyed by a
schedule-id sub-key, teams and flows hold at most one entry. -/
structure OrgCache where
  services : List (String × CacheEntry)
  providers : List (String × CacheEntry)
  teams : Option CacheEntry
  flows : Option CacheEntry

/-- The module-level `nameToIdCache`, keyed by organization id. -/
abbrev Cache := List (String × OrgCache)

/-- Assoc-list read for string keys. -/
def assocGet {β : Type} : List (String × β) → String → Option β
  | [], _ => none
  | (k', v') :: rest, k => if k' = k then some v' else assocGet rest k

/-- Assoc-list write for string keys (replace or append). -/
def assocSet {β : Type} : List (String × β) → String → β → List (String × β)
  | [], k, v => [(k, v)]
  | (k', v') :: rest, k, v =>
    if k' = k then (k', v) :: rest else (k', v') :: assocSet rest k v

/-- `isCacheValid(timestamp)`: the timestamp is truthy and younger than the
TTL.  `Date.now() - timestamp` is non-negative whenever `now ≥ timestamp`,
and a clock that ran backwards still validates in both the source
(negative < TTL) and this model (truncated difference 0 < TTL). -/
def isCacheValid (timestamp now : Nat) : Bool :=
  timestamp ≠ 0 ∧ now - timestamp < CACHE_EXPIRATION

/-- `getCachedMap(organizationId, type, subKey)` at clock `now`. -/
def getCachedMap (cache : Cache) (organizationId : String) (type : CacheType)
    (subKey : Option String) (now : Nat) : Option NameMap :=
  match assocGet cache organizationId with
  | none => none
  | some org =>
    if (type = .services ∨ type = .providers) ∧ subKey = none then none
    else
      match type, subKey with
      | .services, some k =>
        match assocGet org.services k with
        | none => none
        | some entry => if isCacheValid entry.timestamp now then some entry.data else none
      | .providers, some k =>
        match assocGet org.providers k with
        | none => none
        | some entry => if isCacheValid entry.timestamp now then some entry.data else none
      | .teams, _ =>
        match org.teams with
        | none => none
        | some entry => if isCacheValid entry.timestamp now then some entry.data else none
      | .flows, _ =>
        match org.flows with
        | none => none
        | some entry => if isCacheValid entry.timestamp now then some entry.data else none
      | _, _ => none

/-- The freshly created organization bucket of `setCachedMap`. -/
def emptyOrgCache : OrgCache :=
  { services := [], providers := [], teams := none, flows := none }

/-- `setCachedMap(organizationId, type, map, subKey)` at clock `now`.
A falsy organization id is a no-op.  Services/providers with a sub-key are
stored under it; without a sub-key the source overwrites the whole
per-schedule object with a flat entry that no keyed `get` can observe,
which this model renders as clearing that bucket. -/
def setCachedMap (cache : Cache) (organizationId : String) (type : CacheType)
    (map : NameMap) (subKey : Option String) (now : Nat) : Cache :=
  if organizationId = "" then cache
  else
    let org := match assocGet cache organizationId with
      | some o => o
      | none => emptyOrgCache
    let entry : CacheEntry := { data := map, timestamp := now }
    let org' := match type, subKey with
      | .services, some k => { org with services := assocSet org.services k entry }
      | .providers, some k => { org with providers := assocSet org.providers k entry }
      | .services, none => { org with services := [] }
      | .providers, none => { org with providers := [] }
      | .teams, _ => { org with teams := some entry }
      | .flows, _ => { org with flows := some entry }
    assocSet cache organizationId org'

/-! ## The calendar store (`supabase` tables) -/

/-- A row of `schedules`. -/
structure Schedule where
  id : String
  title : String
  timezone : Option String
  organization_id : String
  status : String
deriving DecidableEq

/-- A row of `schedule_services`; `duration` is the `HH:MM` duration. -/
structure ScheduleService where
  id : String
  title : String
  duration : HHMM
  by_arrival_time : Bool
  schedule_id : String
  status : String
deriving DecidableEq

/-- The joined `profiles(id, full_name)` record of a provider. -/
structure Profile where
  id : String
  full_name : Option String
deriving DecidableEq

/-- A row of `schedule_providers` with its profile join (null when the
profile row is missing). -/
structure ScheduleProvider where
  id : String
  profile_id : String
  schedule_id : String
  status : String
  profiles : Option Profile
deriving DecidableEq

/-- A row of `schedule_availability`. -/
structure AvailabilityWindow where
  provider_id : String
  day_of_week : Nat
  start_time : HHMM
  end_time : HHMM
deriving DecidableEq

/-- A row of `appointments`.  `provider_id` and `service_id` hold whatever
value the dispatcher resolved (the source inserts them untyped), and
`metadata` is the annotation object the cancellation path rewrites. -/
structure Appointment where
  id : String
  schedule_id : String
  customer_id : String
  provider_id : Option JVal
  service_id : Option JVal
  date : Nat
  start_time : Option HHMM
  end_time : Option HHMM
  status : String
  notes : String
  chat_id : Option String
  metadata : List (String × String)

/-- A row of `teams`. -/
structure Team where
  id : String
  name : String
  organization_id : String
deriving DecidableEq

/-- A row of `flows`. -/
structure Flow where
  id : String
  name : String
  organization_id : String
  is_active : Bool
deriving DecidableEq

/-- The relational store plus injected storage failures.  A `fail*` flag
makes the corresponding query's promise reject, which surfaces as
`Except.error` at the `await`; `nextId` feeds the generated id of an
inserted appointment row. -/
structure Database where
  schedules : List Schedule
  schedule_services : List ScheduleService
  schedule_providers : List ScheduleProvider
  schedule_availability : List AvailabilityWindow
  appointments : List Appointment
  teams : List Team
  flows : List Flow
  failProviders : Bool
  failAvailability : Bool
  failAppointments : Bool
  failInsert : Bool
  nextId : Nat

/-- `.single()`: supabase resolves the data only when the filter matched
exactly one row, otherwise the reply carries an error and null data. -/
def single {α : Type} : List α → Option α
  | [x] => some x
  | _ => none

/-- `===` between a resolved identifier value and a row's id string
(an object reference is never equal to a string). -/
def idMatches (v : JVal) (id : String) : Bool :=
  match v with
  | .s str => str = id
  | _ => false

/-- `.eq("id", x)` for a possibly-absent resolved identifier. -/
def idFilter (v : Option JVal) (id : String) : Bool :=
  match v with
  | some jv => idMatches jv id
  | none => false

/-- The weekday of epoch day `d` (day 0, 1970-01-01, was a Thursday), as
computed by `new Date(dateT12:00:00Z).getDay()`; an absent date yields an
invalid date whose weekday (`NaN`) matches no row. -/
def dayOfWeekOf : Option Nat → Option Nat
  | none => none
  | some date => some ((date + 4) % 7)

/-! ## `getAvailableSlots` -/

/-- The `isOccupied` test of one candidate: some existing appointment's
`[start, end)` interval contains the slot. -/
def slotOccupied (existingAppointments : List Appointment) (slot : Nat) : Bool :=
  existingAppointments.any (fun apt =>
    timeToMinutes apt.start_time ≤ slot ∧ timeToMinutes apt.end_time > slot)

/-- The candidate loop of one availability window:
`for (let slot = start; slot <= end - duration; slot += 30)`, pushing the
slot time when no existing appointment's `[start, end)` contains it and it
was not already collected.  The loop advances by 30 each pass, so any fuel
of at least `endM + 1` replays it exactly. -/
def windowSlotsLoop (existingAppointments : List Appointment) (duration : Nat) :
    Nat → Nat → Nat → List HHMM → List HHMM
  | 0, _, _, allSlots => allSlots
  | fuel + 1, slot, endM, allSlots =>
    if slot + duration ≤ endM then
      windowSlotsLoop existingAppointments duration fuel (slot + 30) endM
        (if ¬ slotOccupied existingAppointments slot ∧
            ¬ allSlots.contains (minutesToTime slot) then
          allSlots ++ [minutesToTime slot]
        else allSlots)
    else allSlots

/-- Insertion of a time into a sorted slot list (ascending by clock time;
the source sorts the zero-padded strings, whose lexical order is the
clock order). -/
def insertSorted (t : HHMM) : List HHMM → List HHMM
  | [] => [t]
  | x :: xs =>
    if timeToMinutes (some t) ≤ timeToMinutes (some x) then t :: x :: xs
    else x :: insertSorted t xs

/-- `allSlots.sort()`. -/
def sortSlots : List HHMM → List HHMM
  | [] => []
  | x :: xs => insertSorted x (sortSlots xs)

/-- The active-provider query of `getAvailableSlots`. -/
def activeProvidersOf (db : Database) (scheduleId : String) : List ScheduleProvider :=
  db.schedule_providers.filter (fun p =>
    p.schedule_id = scheduleId ∧ p.status = "active")

/-- The weekday-window query of `getAvailableSlots`. -/
def matchingAvailsOf (db : Database) (scheduleId : String) (date : Option Nat) :
    List AvailabilityWindow :=
  db.schedule_availability.filter (fun a =>
    ((activeProvidersOf db scheduleId).map ScheduleProvider.id).contains a.provider_id ∧
    some a.day_of_week = dayOfWeekOf date)

/-- The non-canceled-appointment query of `getAvailableSlots`. -/
def nonCanceledApptsOf (db : Database) (scheduleId : String) (date : Option Nat) :
    List Appointment :=
  db.appointments.filter (fun apt =>
    apt.schedule_id = scheduleId ∧ some apt.date = date ∧ apt.status ≠ "canceled")

/-- The per-window slot accumulation over the shared `allSlots` list. -/
def windowFold (existingAppointments : List Appointment) (duration : Nat)
    (availabilities : List AvailabilityWindow) : List HHMM :=
  availabilities.foldl
    (fun allSlots availability =>
      windowSlotsLoop existingAppointments duration
        (timeToMinutes (some availability.end_time) + 1)
        (timeToMinutes (some availability.start_time))
        (timeToMinutes (some availability.end_time)) allSlots)
    []

/-- The body of `getAvailableSlots` up to its catch-all: active providers,
matching weekday windows, non-canceled appointments of the date, then the
per-window candidate loop, and the final sort. -/
def getAvailableSlotsCore (db : Database) (scheduleId : String) (date : Option Nat)
    (duration : Nat) : Except JsErr (List HHMM) :=
  if db.failProviders then .error ⟨"providers query failed"⟩
  else if (activeProvidersOf db scheduleId).isEmpty then .ok []
  else if db.failAvailability then .error ⟨"availability query failed"⟩
  else if (matchingAvailsOf db scheduleId date).isEmpty then .ok []
  else if db.failAppointments then .error ⟨"appointments query failed"⟩
  else .ok (sortSlots (windowFold (nonCanceledApptsOf db scheduleId date) duration
    (matchingAvailsOf db scheduleId date)))

/-- `getAvailableSlots(scheduleId, date, serviceId, duration, isByArrivalTime)`
— the catch-all converts any rejection into an empty list.  (`serviceId`
and `isByArrivalTime` are accepted and unused, as in the source.) -/
def getAvailableSlots (db : Database) (scheduleId : String) (date : Option Nat)
    (serviceId : Option JVal) (duration : Nat) (isByArrivalTime : Bool) : List HHMM :=
  match getAvailableSlotsCore db scheduleId date duration with
  | .ok slots => slots
  | .error _ => []

/-! ## `checkAvailability` -/

/-- The envelope `checkAvailability` resolves with (fields absent on some
branches are `none`). -/
structure AvailabilityResult where
  success : Bool
  available : Option Bool := none
  date : Option Nat := none
  formatted_date : Option String := none
  requested_time : Option HHMM := none
  available_times : Option (List HHMM) := none
  message : String

/-- `toLocaleDateString("pt-BR")` — rendering abstracted to the day number;
no claim constrains the locale format.  An absent date renders the way an
invalid `Date` does. -/
def formatDateBR : Option Nat → String
  | none => "Invalid Date"
  | some date => toString date

/-- The duration-in-minutes derivation of `checkAvailability`: 30 unless a
service is given and found, else `HH * 60 + MM` of its `duration` column
(the parse of the stored `HH:MM` text cannot fail on this model's
well-typed column, so the source's fallback branch is not reachable). -/
def serviceDurationOf (db : Database) (serviceId : Option JVal) : Nat :=
  match serviceId with
  | none => 30
  | some _ =>
    match single (db.schedule_services.filter (fun s => idFilter serviceId s.id)) with
    | none => 30
    | some service => timeToMinutes (some service.duration)

/-- The `by_arrival_time` flag the same lookup yields. -/
def serviceByArrivalOf (db : Database) (serviceId : Option JVal) : Bool :=
  match serviceId with
  | none => false
  | some _ =>
    match single (db.schedule_services.filter (fun s => idFilter serviceId s.id)) with
    | none => false
    | some service => service.by_arrival_time

/-- The service title the same lookup yields. -/
def serviceTitleOf (db : Database) (serviceId : Option JVal) : String :=
  match serviceId with
  | none => "Service not specified"
  | some _ =>
    match single (db.schedule_services.filter (fun s => idFilter serviceId s.id)) with
    | none => "Service not specified"
    | some service => service.title

/-- `checkAvailability(scheduleId, date, time, serviceId, timezone)`.
Its own catch-all never fires on this model (the slot computation catches
its failures itself), so the function is total. -/
def checkAvailability (db : Database) (scheduleId : String) (date : Option Nat)
    (time : Option HHMM) (serviceId : Option JVal) : AvailabilityResult :=
  match single (db.schedules.filter (fun s => s.id = scheduleId)) with
  | none =>
    { success := false
      message := "Schedule not found with ID " ++ scheduleId }
  | some _ =>
    let serviceDuration := serviceDurationOf db serviceId
    let isByArrivalTime := serviceByArrivalOf db serviceId
    let formattedDate := formatDateBR date
    let availableSlots := getAvailableSlots db scheduleId date serviceId serviceDuration isByArrivalTime
    match time with
    | none =>
      { success := true
        available := some (¬ availableSlots.isEmpty)
        date := date
        formatted_date := some formattedDate
        available_times := some availableSlots
        message :=
          if ¬ availableSlots.isEmpty then
            toString availableSlots.length ++ " time slots available on " ++ formattedDate
          else "No available slots on " ++ formattedDate }
    | some t =>
      let isAvailable := availableSlots.contains t
      { success := true
        available := some isAvailable
        date := date
        formatted_date := some formattedDate
        requested_time := some t
        available_times := some availableSlots
        message :=
          if isAvailable then
            "Slot available on " ++ formattedDate ++ " at " ++ hhmmStr t
          else "No availability on " ++ formattedDate ++ " at " ++ hhmmStr t }

/-! ## `createAppointment` -/

/-- Template-literal rendering of a resolved identifier value. -/
def jvalDisplay : Option JVal → String
  | none => "undefined"
  | some (.s str) => str
  | some (.o _) => "[object Object]"
  | some .nullv => "null"

/-- Template-literal rendering of a possibly-absent time. -/
def hhmmDisplay : Option HHMM → String
  | none => "undefined"
  | some t => hhmmStr t

/-- The session object handed in by the conversational layer. -/
structure Session where
  organization_id : String
  customer_id : String
  chat_id : Option String

/-- The envelope `createAppointment` resolves with. -/
structure CreateResult where
  success : Bool
  appointment_id : Option String := none
  date : Option Nat := none
  formatted_date : Option String := none
  time : Option HHMM := none
  end_time : Option HHMM := none
  service_id : Option JVal := none
  service_name : Option String := none
  message : String

/-- `createAppointment(scheduleId, customerId, date, time, serviceId, notes,
providerId, timezone, session)` at clock `now`, returning its envelope and
the (possibly extended) appointment table.  The catch-all turns the two
failures that can surface here — reading `.join` off the absent
`available_times` of a failed availability check, and a rejected insert —
into an error envelope. -/
def createAppointment (db : Database) (now : Nat) (scheduleId : String)
    (customerId : String) (date : Nat) (time : Option HHMM)
    (serviceId : Option JVal) (notes : Option String) (providerId : Option JVal)
    (session : Session) : CreateResult × Database :=
  let availabilityCheck := checkAvailability db scheduleId (some date) time serviceId
  if availabilityCheck.available ≠ some true then
    match availabilityCheck.available_times with
    | none =>
      ({ success := false
         message := "Error creating appointment: Cannot read properties of undefined" }, db)
    | some times =>
      ({ success := false
         message := "The requested time slot is not available. Available times: " ++
           joinTimes times }, db)
  else
    match single (db.schedule_services.filter (fun s => idFilter serviceId s.id)) with
    | none =>
      ({ success := false
         message := "Service not found with ID " ++ jvalDisplay serviceId }, db)
    | some serviceData =>
      let endTime : Option HHMM :=
        match time with
        | none => time
        | some t =>
          let durationMinutes := serviceData.duration.hours * 60 + serviceData.duration.minutes
          let startMinutes := t.hours * 60 + t.minutes
          let endMinutes := startMinutes + durationMinutes
          some ⟨endMinutes / 60, endMinutes % 60⟩
      let selectedProviderId : Option JVal :=
        match providerId with
        | some p => some p
        | none =>
          match (db.schedule_providers.filter (fun p =>
              p.schedule_id = scheduleId ∧ p.status = "active")).head? with
          | some availableProvider => some (.s availableProvider.profile_id)
          | none => none
      if db.failInsert then
        ({ success := false
           message := "Error creating appointment: insert failed" }, db)
      else
        let appointment : Appointment :=
          { id := toString db.nextId
            schedule_id := scheduleId
            customer_id := customerId
            provider_id := selectedProviderId
            service_id := serviceId
            date := date
            start_time := time
            end_time := endTime
            status := "scheduled"
            notes := notes.getD ""
            chat_id := session.chat_id
            metadata := [("created_via", "agent_ia_action"), ("creation_date", toString now)] }
        ({ success := true
           appointment_id := some appointment.id
           date := some date
           formatted_date := some (formatDateBR (some date))
           time := time
           end_time := endTime
           service_id := serviceId
           service_name := some serviceData.title
           message := "Appointment successfully created for " ++ formatDateBR (some date) ++
             " at " ++ hhmmDisplay time },
         { db with appointments := db.appointments ++ [appointment], nextId := db.nextId + 1 })

/-! ## `checkAppointment` -/

/-- The envelope `checkAppointment` resolves with (the per-row display
formatting is kept as the raw rows; no claim touches it). -/
structure CheckResult where
  success : Bool
  appointments : List Appointment := []
  count : Option Nat := none
  message : String

/-- An `.eq` query clause guarded by `if (value)`: a truthy value must
match, a falsy one adds no clause. -/
def optEqClause (o : Option String) (x : String) : Bool :=
  match o with
  | some v => if v = "" then true else v = x
  | none => true

/-- Sorted insertion by `(date, start_time)`, modelling the query's
`order(date).order(start_time)` ascending. -/
def insertByDateTime (apt : Appointment) : List Appointment → List Appointment
  | [] => [apt]
  | x :: xs =>
    if apt.date < x.date ∨
        (apt.date = x.date ∧ timeToMinutes apt.start_time ≤ timeToMinutes x.start_time) then
      apt :: x :: xs
    else x :: insertByDateTime apt xs

/-- Sort of the appointment query result. -/
def sortByDateTime : List Appointment → List Appointment
  | [] => []
  | x :: xs => insertByDateTime x (sortByDateTime xs)

/-- `checkAppointment(customerId, appointmentId, scheduleId)`. -/
def checkAppointment (db : Database) (customerId : String)
    (appointmentId : Option String) (scheduleId : Option String) : CheckResult :=
  let rows := db.appointments.filter (fun apt =>
    apt.customer_id = customerId ∧
    (apt.status = "scheduled" ∨ apt.status = "confirmed") ∧
    optEqClause scheduleId apt.schedule_id ∧
    optEqClause appointmentId apt.id)
  let appointments := sortByDateTime rows
  { success := true
    appointments := appointments
    count := some appointments.length
    message :=
      if appointments.length > 0 then
        "Found " ++ toString appointments.length ++ " appointment(s)"
      else "No appointments found" }

/-! ## `deleteAppointment` -/

/-- The envelope `deleteAppointment` resolves with. -/
structure DeleteResult where
  success : Bool
  appointment_id : Option String := none
  date : Option Nat := none
  formatted_date : Option String := none
  time : Option HHMM := none
  canceled_count : Option Nat := none
  message : String

/-- The row rewrite of a cancellation: status becomes `canceled` and the
metadata object is re-spread with the cancellation stamp and source. -/
def cancelRow (now : Nat) (apt : Appointment) : Appointment :=
  { apt with
      status := "canceled"
      metadata := assocSet (assocSet apt.metadata "canceled_at" (toString now))
        "canceled_via" "agent_ia_action" }

/-- `deleteAppointment(appointmentId, customerId, date, scheduleId)` at
clock `now`: by-identifier mode when an id is given, else by-date mode,
else a parameter error.  Updates never reject on this model, so the
by-date loop cancels every matched row. -/
def deleteAppointment (db : Database) (now : Nat) (appointmentId : Option String)
    (customerId : String) (date : Option Nat) (scheduleId : Option String) :
    DeleteResult × Database :=
  if truthyS appointmentId then
    let aid := appointmentId.getD ""
    match single (db.appointments.filter (fun apt =>
        apt.id = aid ∧ apt.customer_id = customerId ∧
        (apt.status = "scheduled" ∨ apt.status = "confirmed"))) with
    | none =>
      ({ success := false
         message := "Appointment not found with ID " ++ aid ++
           " or it doesn\x27t belong to this customer" }, db)
    | some appointment =>
      let db' := { db with appointments := db.appointments.map (fun apt =>
        if apt.id = aid then cancelRow now apt else apt) }
      ({ success := true
         appointment_id := some aid
         date := some appointment.date
         formatted_date := some (formatDateBR (some appointment.date))
         time := appointment.start_time
         message := "Appointment successfully canceled for " ++
           formatDateBR (some appointment.date) ++ " at " ++
           hhmmDisplay appointment.start_time }, db')
  else
    match date with
    | some d =>
      let appointments := db.appointments.filter (fun apt =>
        apt.customer_id = customerId ∧ apt.date = d ∧
        (apt.status = "scheduled" ∨ apt.status = "confirmed") ∧
        optEqClause scheduleId apt.schedule_id)
      if appointments.isEmpty then
        ({ success := false
           message := "No appointments found for date " ++ toString d }, db)
      else
        let matchedIds := appointments.map Appointment.id
        let db' := { db with appointments := db.appointments.map (fun apt =>
          if matchedIds.contains apt.id then cancelRow now apt else apt) }
        ({ success := true
           canceled_count := some appointments.length
           date := some d
           formatted_date := some (formatDateBR (some d))
           message := "Successfully canceled " ++ toString appointments.length ++
             " appointment(s) for " ++ formatDateBR (some d) }, db')
    | none =>
      ({ success := false
         message := "Either appointment_id or date is required to cancel appointments" }, db)

/-! ## `processCheckScheduleAction` and `handleSystemToolCall` -/

/-- The tool-call arguments object.  The four `*_id` fields are the slots
the dispatcher writes resolved identifiers into; everything else arrives
from the caller. -/
structure Args where
  operation : Option String := none
  date : Option Nat := none
  time : Option HHMM := none
  service_name : Option String := none
  provider_name : Option String := none
  team_name : Option String := none
  flow_name : Option String := none
  title : Option String := none
  status : Option String := none
  notes : Option String := none
  appointment_id : Option String := none
  name : Option String := none
  service_id : Option JVal := none
  provider_id : Option JVal := none
  team_id : Option JVal := none
  flow_id : Option JVal := none

/-- A configured System Action record.  `title` is not part of the record's
documented shape; it is carried (normally absent) because
`generateUpdateCustomerTool` reads `action.title`. -/
structure ActionConfig where
  schedule : Option String := none

structure SystemAction where
  name : String
  description : Option String := none
  title : Option String := none
  type : String
  config : ActionConfig := {}

/-- The invoked tool (only its name is consulted). -/
structure ToolCall where
  name : String

/-- The result envelope dispatch hands back: `status`, `message`, and the
operation echo of the schedule path (the enriched `data` blob duplicates
fields no claim constrains and is omitted). -/
structure ToolResult where
  status : String
  message : String
  operation : Option String := none

/-- The action payload forwarded to the schedule-action processor
(`actionReturn`).  Its `appointmentId`/`serviceId` config slots read the
non-existent `args.appointmentId`/`args.serviceId` properties in the
source and are therefore always absent. -/
structure SchedulePayloadConfig where
  scheduleId : Option String := none
  operation : Option String := none
  date : Option Nat := none
  time : Option HHMM := none
  appointmentId : Option String := none
  serviceId : Option JVal := none
  notes : Option String := none

structure ScheduleActionPayload where
  type : Option String := none
  config : SchedulePayloadConfig := {}

/-- `processCheckScheduleAction(action, args, session)` at clock `now`.
Nothing inside it can reject on this model (every operation catches its
own failures), so its catch-all is not represented. -/
def processCheckScheduleAction (db : Database) (now : Nat)
    (action : ScheduleActionPayload) (args : Args) (session : Session) :
    ToolResult × Database :=
  let operation := args.operation
  if ¬ truthyS operation then
    ({ status := "error"
       message := "Operation parameter is required for schedule actions." }, db)
  else
    match action.config.scheduleId with
    | none =>
      ({ status := "error", message := "No schedule configured for this action." }, db)
    | some scheduleId =>
      if scheduleId = "" then
        ({ status := "error", message := "No schedule configured for this action." }, db)
      else
        -- The timezone/title lookup feeds only the omitted data blob.
        let op := operation.getD ""
        let enrich := fun (success : Bool) (message : String) (db' : Database) =>
          ({ status := if success then "success" else "error"
             message := message
             operation := some op }, db')
        match op with
        | "checkAvailability" =>
          let result := checkAvailability db scheduleId args.date args.time args.service_id
          enrich result.success result.message db
        | "createAppointment" =>
          match args.date, truthyO args.service_id with
          | some d, true =>
            let (result, db') := createAppointment db now scheduleId
              session.customer_id d args.time args.service_id args.notes
              args.provider_id session
            enrich result.success result.message db'
          | dateArg, serviceOk =>
            ({ status := "error"
               message := "Missing required parameters: " ++
                 (if dateArg = none then
                    if ¬ serviceOk then "date, service_id" else "date"
                  else "service_id") }, db)
        | "checkAppointment" =>
          let result := checkAppointment db session.customer_id
            args.appointment_id (some scheduleId)
          enrich result.success result.message db
        | "deleteAppointment" =>
          if ¬ truthyS args.appointment_id ∧ args.date = none then
            ({ status := "error"
               message := "Either appointment_id or date is required to cancel appointments." }, db)
          else
            let (result, db') := deleteAppointment db now args.appointment_id
              session.customer_id args.date (some scheduleId)
            enrich result.success result.message db'
        | _ =>
          ({ status := "error", message := "Unsupported operation: " ++ op }, db)

/-- The payload forwarded to the three external action executors. -/
structure DispatchedConfig where
  name : Option String := none
  title : Option String := none
  status : Option String := none
  teamId : Option JVal := none
  flowId : Option JVal := none

structure DispatchedAction where
  type : String
  config : DispatchedConfig := {}

/-- The externally supplied action executors; each may reject. -/
structure Executors where
  processUpdateCustomerAction : DispatchedAction → Args → Session → Except JsErr ToolResult
  processUpdateChatAction : DispatchedAction → Args → Session → Except JsErr ToolResult
  processStartFlowAction : DispatchedAction → Args → Session → Except JsErr ToolResult

/-- What a dispatch step produced: a returned envelope, a thrown error, or
the go-ahead with the step's view of the mutated state. -/
inductive Step (α : Type) where
  | ret (r : ToolResult)
  | thrown (e : JsErr)
  | cont (a : α)

/-- The row shape the services query selects, as the untyped object the
name resolver receives. -/
def serviceToJVal (s : ScheduleService) : JVal :=
  .o [("id", .s s.id), ("title", .s s.title)]

/-- `providers.map(p => p.profiles)` — the profile join object (null when
the join found nothing). -/
def providerProfileToJVal : Option Profile → JVal
  | none => .nullv
  | some pr =>
    .o [("id", .s pr.id),
        ("full_name", match pr.full_name with
          | some n => .s n
          | none => .nullv)]

/-- The row shape of the teams query. -/
def teamToJVal (t : Team) : JVal :=
  .o [("id", .s t.id), ("name", .s t.name)]

/-- The row shape of the flows query. -/
def flowToJVal (f : Flow) : JVal :=
  .o [("id", .s f.id), ("name", .s f.name)]

/-- Step 1 of the schedule branch: resolve `args.service_name` through the
services cache (read-through on miss), a missing service list or an
unresolved name being terminal. -/
def resolveServiceStep (db : Database) (cache : Cache) (now : Nat)
    (session : Session) (scheduleId : String) (args : Args) : Step (Args × Cache) :=
  if ¬ truthyS args.service_name then .cont (args, cache)
  else
    let serviceNameArg := args.service_name.getD ""
    let finish := fun (serviceMap : NameMap) (cache' : Cache) =>
      let serviceName := strToLower serviceNameArg
      let v := lookupKey serviceMap serviceName
      if truthyO v then Step.cont ({ args with service_id := v }, cache')
      else Step.ret
        { status := "error"
          message := "Service \"" ++ serviceNameArg ++
            "\" not found. Please choose a valid service." }
    match getCachedMap cache session.organization_id .services (some scheduleId) now with
    | some serviceMap => finish serviceMap cache
    | none =>
      let services := db.schedule_services.filter (fun s =>
        s.schedule_id = scheduleId ∧ s.status = "active")
      if services.isEmpty then
        .ret { status := "error", message := "No services found for this schedule." }
      else
        match createNameToIdMap (some (services.map serviceToJVal)) "title" "id" with
        | .error e => .thrown e
        | .ok serviceMap =>
          let cache' := setCachedMap cache session.organization_id .services
            serviceMap (some scheduleId) now
          finish serviceMap cache'

/-- Step 2 of the schedule branch: resolve `args.provider_name` the same
way, but nothing here is terminal — an empty provider list skips the
lookup and an unresolved name is ignored. -/
def resolveProviderStep (db : Database) (cache : Cache) (now : Nat)
    (session : Session) (scheduleId : String) (args : Args) : Step (Args × Cache) :=
  if ¬ truthyS args.provider_name then .cont (args, cache)
  else
    let providerNameArg := args.provider_name.getD ""
    let finish := fun (providerMap : NameMap) (cache' : Cache) =>
      let providerName := strToLower providerNameArg
      let v := lookupKey providerMap providerName
      if truthyO v then Step.cont ({ args with provider_id := v }, cache')
      else Step.cont (args, cache')
    match getCachedMap cache session.organization_id .providers (some scheduleId) now with
    | some providerMap => finish providerMap cache
    | none =>
      let providers := db.schedule_providers.filter (fun p =>
        p.schedule_id = scheduleId ∧ p.status = "active")
      if providers.isEmpty then .cont (args, cache)
      else
        match createNameToIdMap
            (some (providers.map (fun p => providerProfileToJVal p.profiles)))
            "full_name" "id" with
        | .error e => .thrown e
        | .ok providerMap =>
          let cache' := setCachedMap cache session.organization_id .providers
            providerMap (some scheduleId) now
          finish providerMap cache'

/-- The team-name resolution of the `update_chat` branch: no teams at all
skips the assignment, an unresolved name is terminal. -/
def resolveTeamStep (db : Database) (cache : Cache) (now : Nat)
    (session : Session) (args : Args) : Step (Args × Cache) :=
  if ¬ truthyS args.team_name then .cont (args, cache)
  else
    let teamNameArg := args.team_name.getD ""
    let finish := fun (teamMap : NameMap) (cache' : Cache) =>
      let teamName := strToLower teamNameArg
      let v := lookupKey teamMap teamName
      if truthyO v then Step.cont ({ args with team_id := v }, cache')
      else Step.ret
        { status := "error"
          message := "Team \"" ++ teamNameArg ++
            "\" not found. Please choose a valid team." }
    match getCachedMap cache session.organization_id .teams none now with
    | some teamMap => finish teamMap cache
    | none =>
      let teams := db.teams.filter (fun t =>
        t.organization_id = session.organization_id)
      if teams.isEmpty then .cont (args, cache)
      else
        match createNameToIdMap (some (teams.map teamToJVal)) "name" "id" with
        | .error e => .thrown e
        | .ok teamMap =>
          let cache' := setCachedMap cache session.organization_id .teams teamMap none now
          finish teamMap cache'

/-- The flow-name resolution of the `start_flow` branch: no active flows or
an unresolved name are terminal. -/
def resolveFlowStep (db : Database) (cache : Cache) (now : Nat)
    (session : Session) (args : Args) : Step (Args × Cache) :=
  let flowNameArg := args.flow_name.getD ""
  let finish := fun (flowMap : NameMap) (cache' : Cache) =>
    let flowName := strToLower flowNameArg
    let v := lookupKey flowMap flowName
    if truthyO v then Step.cont ({ args with flow_id := v }, cache')
    else Step.ret
      { status := "error"
        message := "Flow \"" ++ flowNameArg ++
          "\" not found. Please choose a valid flow." }
  match getCachedMap cache session.organization_id .flows none now with
  | some flowMap => finish flowMap cache
  | none =>
    let flows := db.flows.filter (fun f =>
      f.organization_id = session.organization_id ∧ f.is_active = true)
    if flows.isEmpty then
      .ret { status := "error", message := "No active flows found for this organization." }
    else
      match createNameToIdMap (some (flows.map flowToJVal)) "name" "id" with
      | .error e => .thrown e
      | .ok flowMap =>
        let cache' := setCachedMap cache session.organization_id .flows flowMap none now
        finish flowMap cache'

/-- The outcome of `handleSystemToolCall`'s try-block: a returned envelope
or a thrown error, together with the state as mutated so far. -/
inductive DispatchOutcome where
  | ok (r : ToolResult)
  | thrown (e : JsErr)

/-- The body of `handleSystemToolCall` up to its catch-all: find the
configured action by tool name (a missing match makes the logging line's
`action.config` access throw), then branch on the action type. -/
def handleSystemToolCallCore (db : Database) (cache : Cache) (now : Nat)
    (tool : ToolCall) (args : Args) (actionsSystem : List SystemAction)
    (session : Session) (ex : Executors) :
    DispatchOutcome × Args × Cache × Database :=
  match actionsSystem.find? (fun action => action.name = tool.name) with
  | none =>
    (.thrown ⟨"Cannot read properties of undefined"⟩, args, cache, db)
  | some action =>
    match action.type with
    | "schedule" =>
      if ¬ truthyS action.config.schedule then
        (.ok { status := "error", message := "Schedule ID is required." }, args, cache, db)
      else
        let configSchedule := action.config.schedule.getD ""
        let schedules := db.schedules.filter (fun s =>
          s.organization_id = session.organization_id ∧
          s.id = configSchedule ∧ s.status = "active")
        match schedules with
        | [] =>
          (.ok { status := "error"
                 message := "No active schedules found for this organization." },
           args, cache, db)
        | schedule0 :: _ =>
          let scheduleId := schedule0.id
          match resolveServiceStep db cache now session scheduleId args with
          | .ret r => (.ok r, args, cache, db)
          | .thrown e => (.thrown e, args, cache, db)
          | .cont (args1, cache1) =>
            match resolveProviderStep db cache1 now session scheduleId args1 with
            | .ret r => (.ok r, args1, cache1, db)
            | .thrown e => (.thrown e, args1, cache1, db)
            | .cont (args2, cache2) =>
              let actionReturn : ScheduleActionPayload :=
                { type := args2.operation
                  config :=
                    { scheduleId := some scheduleId
                      operation := args2.operation
                      date := args2.date
                      time := args2.time
                      appointmentId := none
                      serviceId := none
                      notes := args2.notes } }
              let (result, db') := processCheckScheduleAction db now actionReturn args2 session
              (.ok result, args2, cache2, db')
    | "update_customer" =>
      let actionPayload : DispatchedAction :=
        { type := "update_customer", config := { name := args.name } }
      match ex.processUpdateCustomerAction actionPayload args session with
      | .ok r => (.ok r, args, cache, db)
      | .error e => (.thrown e, args, cache, db)
    | "update_chat" =>
      match resolveTeamStep db cache now session args with
      | .ret r => (.ok r, args, cache, db)
      | .thrown e => (.thrown e, args, cache, db)
      | .cont (args1, cache1) =>
        let actionPayload : DispatchedAction :=
          { type := "update_chat"
            config := { title := args1.title, status := args1.status, teamId := args1.team_id } }
        match ex.processUpdateChatAction actionPayload args1 session with
        | .ok r => (.ok r, args1, cache1, db)
        | .error e => (.thrown e, args1, cache1, db)
    | "start_flow" =>
      if ¬ truthyS args.flow_name then
        (.ok { status := "error", message := "Flow name is required." }, args, cache, db)
      else
        match resolveFlowStep db cache now session args with
        | .ret r => (.ok r, args, cache, db)
        | .thrown e => (.thrown e, args, cache, db)
        | .cont (args1, cache1) =>
          let actionPayload : DispatchedAction :=
            { type := "start_flow", config := { flowId := args1.flow_id } }
          match ex.processStartFlowAction actionPayload args1 session with
          | .ok r => (.ok r, args1, cache1, db)
          | .error e => (.thrown e, args1, cache1, db)
    | _ =>
      (.ok { status := "error", message := "Unrecognized system tool: " ++ tool.name },
       args, cache, db)

/-- `handleSystemToolCall(tool, args, actionsSystem, session, executors)`:
the try-block's outcome with the catch-all applied — a thrown error
becomes an error envelope carrying its message, and the mutations made
before the throw persist. -/
def handleSystemToolCall (db : Database) (cache : Cache) (now : Nat)
    (tool : ToolCall) (args : Args) (actionsSystem : List SystemAction)
    (session : Session) (ex : Executors) :
    ToolResult × Args × Cache × Database :=
  match handleSystemToolCallCore db cache now tool args actionsSystem session ex with
  | (.ok r, args', cache', db') => (r, args', cache', db')
  | (.thrown e, args', cache', db') =>
    ({ status := "error"
       message := "Error processing system tool " ++ tool.name ++ ": " ++ e.message },
     args', cache', db')

/-! ## Tool generation (`generateUpdateCustomerTool`) -/

/-- A generated tool definition; the static parameter schemas carry no
name-dependent data and are omitted. -/
structure Tool where
  name : String
  description : String

/-- `x || fallback` for optional strings. -/
def jsOr (v : Option String) (fallback : String) : String :=
  match v with
  | some s => if s = "" then fallback else s
  | none => fallback

/-- `generateUpdateCustomerTool(action)`: note that the source derives the
tool name from `action.title`, not from the configured `action.name` its
own comment describes. -/
def generateUpdateCustomerTool (action : SystemAction) : Tool :=
  { name := transformToolName (jsOr action.title "update_customer")
    description := jsOr action.description
      "Atualizar informações do cliente, como nome, email, telefone ou estágio no funil." }

/-! ## Concrete data for witnesses -/

/-- A 30-minute service on schedule `s1`. -/
def svc0 : ScheduleService :=
  { id := "svc1", title := "Corte", duration := ⟨0, 30⟩, by_arrival_time := false
    schedule_id := "s1", status := "active" }

/-- An active schedule of organization `org1`. -/
def sched0 : Schedule :=
  { id := "s1", title := "Agenda", timezone := none
    organization_id := "org1", status := "active" }

/-- An active provider of schedule `s1` with a joined profile. -/
def prov0 : ScheduleProvider :=
  { id := "p1", profile_id := "pr1", schedule_id := "s1", status := "active"
    profiles := some { id := "pr1", full_name := some "Ana" } }

/-- A Sunday 09:00–10:00 window of provider `p1`. -/
def avail0 : AvailabilityWindow :=
  { provider_id := "p1", day_of_week := 0, start_time := ⟨9, 0⟩, end_time := ⟨10, 0⟩ }

/-- A booked 09:00–09:30 appointment of customer `c1` on day 3. -/
def apt0 : Appointment :=
  { id := "a1", schedule_id := "s1", customer_id := "c1"
    provider_id := some (.s "pr1"), service_id := some (.s "svc1")
    date := 3, start_time := some ⟨9, 0⟩, end_time := some ⟨9, 30⟩
    status := "scheduled", notes := "", chat_id := none, metadata := [] }

/-- A healthy store with one schedule, service, provider, window, team and
flow, and no appointments.  Day 3 falls on the window's weekday. -/
def db0 : Database :=
  { schedules := [sched0], schedule_services := [svc0]
    schedule_providers := [prov0], schedule_availability := [avail0]
    appointments := [], teams := [{ id := "t1", name := "Suporte", organization_id := "org1" }]
    flows := [{ id := "f1", name := "Boas Vindas", organization_id := "org1", is_active := true }]
    failProviders := false, failAvailability := false, failAppointments := false
    failInsert := false, nextId := 0 }

/-- The session all witnesses run under. -/
def session0 : Session :=
  { organization_id := "org1", customer_id := "c1", chat_id := some "chat1" }

/-! ## General lemmas -/

theorem map_eq_self {α : Type} (f : α → α) :
    ∀ l : List α, (∀ c ∈ l, f c = c) → l.map f = l := by
  intro l h
  induction l with
  | nil => rfl
  | cons c rest ih =>
    simp only [List.map_cons, List.cons.injEq]
    exact ⟨h c (by simp), ih (fun x hx => h x (by simp [hx]))⟩

theorem toLower_eq_self (c : Char) (h : isLowerAlnum c = true ∨ c = '_') :
    c.toLower = c := by
  have hn : ¬ (65 ≤ c.toNat ∧ c.toNat ≤ 90) := by
    rcases h with h | h
    · simp only [isLowerAlnum, decide_eq_true_eq] at h
      omega
    · subst h
      decide
  unfold Char.toLower
  simp only [ge_iff_le, hn, if_false]

theorem collapseUnd_eq_self :
    ∀ l : List Char, noDoubleUnd l = true → collapseUnd l = l := by
  intro l
  induction l with
  | nil => intro _; rfl
  | cons c rest ih =>
    cases rest with
    | nil => intro _; rfl
    | cons c2 rest' =>
      intro h
      simp only [noDoubleUnd, Bool.and_eq_true, decide_eq_true_eq] at h
      unfold collapseUnd
      rw [if_neg (by simpa using h.1)]
      exact congrArg (c :: ·) (ih h.2)

theorem dropOneLeadUnd_eq_self (l : List Char) (hh : l.head? ≠ some '_') :
    dropOneLeadUnd l = l := by
  rcases l with _ | ⟨c, rest⟩
  · rfl
  · simp only [List.head?_cons, ne_eq, Option.some.injEq] at hh
    simp [dropOneLeadUnd, hh]

theorem trimEdgeUnd_eq_self (l : List Char)
    (hh : l.head? ≠ some '_') (hl : l.getLast? ≠ some '_') :
    trimEdgeUnd l = l := by
  unfold trimEdgeUnd
  rw [dropOneLeadUnd_eq_self l hh]
  rw [dropOneLeadUnd_eq_self l.reverse (by rw [List.head?_reverse]; exact hl)]
  exact List.reverse_reverse l

theorem transformToolName_eq_self (s : String) (h : slugFixedForm s = true) :
    transformToolName s = s := by
  simp only [slugFixedForm, Bool.and_eq_true, List.all_eq_true, decide_eq_true_eq] at h
  obtain ⟨hclass, hchain, hhead, hlast⟩ := h
  unfold transformToolName
  split
  · next hempty => rw [hempty]
  · next hne =>
    have hmap : s.data.map Char.toLower = s.data :=
      map_eq_self _ _ (fun c hc => toLower_eq_self c (by
        rcases hclass c hc with h | h
        · exact Or.inl (by simpa using h)
        · exact Or.inr h))
    have hrep : replaceNonAlnum s.data = s.data :=
      map_eq_self _ _ (fun c hc => by
        rcases hclass c hc with h | h
        · simp [h]
        · subst h; rfl)
    rw [hmap, hrep, collapseUnd_eq_self _ hchain,
      trimEdgeUnd_eq_self _ (by simpa using hhead) (by simpa using hlast)]

theorem assocGet_set_self {β : Type} (l : List (String × β)) (k : String) (v : β) :
    assocGet (assocSet l k v) k = some v := by
  induction l with
  | nil => simp [assocSet, assocGet]
  | cons p rest ih =>
    rcases p with ⟨k', v'⟩
    by_cases h : k' = k
    · simp [assocSet, assocGet, h]
    · simp [assocSet, assocGet, h, ih]

/-- What a keyed read sees right after a keyed write of the same
`(organization, type, subKey)`: the stored map while the entry validates,
nothing afterwards. -/
theorem getCachedMap_set_same (cache : Cache) (org : String) (type : CacheType)
    (subKey : Option String) (map : NameMap) (setTime getTime : Nat)
    (horg : org ≠ "") (hsub : (type = .services ∨ type = .providers) → subKey ≠ none) :
    getCachedMap (setCachedMap cache org type map subKey setTime) org type subKey getTime =
      if isCacheValid setTime getTime then some map else none := by
  unfold setCachedMap
  rw [if_neg horg]
  unfold getCachedMap
  rw [assocGet_set_self]
  cases type with
  | services =>
    obtain ⟨k, hk⟩ : ∃ k, subKey = some k := by
      rcases subKey with _ | k
      · exact absurd rfl (hsub (Or.inl rfl))
      · exact ⟨k, rfl⟩
    subst hk
    simp [assocGet_set_self]
  | providers =>
    obtain ⟨k, hk⟩ : ∃ k, subKey = some k := by
      rcases subKey with _ | k
      · exact absurd rfl (hsub (Or.inr rfl))
      · exact ⟨k, rfl⟩
    subst hk
    simp [assocGet_set_self]
  | teams =>
    rcases subKey with _ | k <;> simp
  | flows =>
    rcases subKey with _ | k <;> simp

/-! ## Claim C3 -/

/-- C3: a `getCachedMap` right after a `setCachedMap` of the same
`(organization, type, subKey)` returns exactly the stored mapping while
the entry is younger than the one-hour TTL; once the age reaches the TTL
it returns absent regardless of the set; and for `services`/`providers`
a `get` without a sub-key is always absent.  (The organization id is a
non-empty string, the store-time clock is positive as `Date.now()` is,
and the get happens no earlier than the set.) -/
theorem getCachedMap_after_setCachedMap (cache : Cache) (org : String)
    (type : CacheType) (subKey : Option String) (map : NameMap)
    (setTime getTime : Nat) (horg : org ≠ "") (hset : 0 < setTime)
    (hle : setTime ≤ getTime)
    (hsub : (type = .services ∨ type = .providers) → subKey ≠ none) :
    (getTime - setTime < CACHE_EXPIRATION →
      getCachedMap (setCachedMap cache org type map subKey setTime) org type subKey getTime
        = some map) ∧
    (CACHE_EXPIRATION ≤ getTime - setTime →
      getCachedMap (setCachedMap cache org type map subKey setTime) org type subKey getTime
        = none) ∧
    ((type = .services ∨ type = .providers) →
      ∀ c : Cache, getCachedMap c org type none getTime = none) := by
  refine ⟨?_, ?_, ?_⟩
  · intro hfresh
    rw [getCachedMap_set_same cache org type subKey map setTime getTime horg hsub]
    rw [if_pos]
    simp only [isCacheValid, Bool.and_eq_true, decide_eq_true_eq]
    omega
  · intro hstale
    rw [getCachedMap_set_same cache org type subKey map setTime getTime horg hsub]
    rw [if_neg]
    simp only [isCacheValid, Bool.and_eq_true, decide_eq_true_eq]
    omega
  · intro htype c
    unfold getCachedMap
    cases hassoc : assocGet c org with
    | none => rfl
    | some o => rcases htype with h | h <;> subst h <;> simp

/-- C3, witness: the fresh-read, stale-read and missing-sub-key clauses at
concrete keys, times and mapping. -/
theorem getCachedMap_after_setCachedMap_witness :
    (getCachedMap (setCachedMap [] "org1" .services [("corte", .s "svc1")] (some "s1") 1000)
        "org1" .services (some "s1") 2000 = some [("corte", .s "svc1")]) ∧
    (getCachedMap (setCachedMap [] "org1" .services [("corte", .s "svc1")] (some "s1") 1000)
        "org1" .services (some "s1") 3601000 = none) ∧
    getCachedMap [] "org1" .services none 2000 = none := by
  have h := getCachedMap_after_setCachedMap [] "org1" .services (some "s1")
    [("corte", .s "svc1")] 1000 2000 (by decide) (by decide) (by decide)
    (fun _ => by decide)
  have h' := getCachedMap_after_setCachedMap [] "org1" .services (some "s1")
    [("corte", .s "svc1")] 1000 3601000 (by decide) (by decide) (by decide)
    (fun _ => by decide)
  exact ⟨h.1 (by decide), h'.2.1 (by decide), h.2.2 (Or.inl rfl) []⟩

/-! ## Claim C6 -/

/-- One unfolding of the object write. -/
theorem setKey_cons (k' : String) (v' : JVal) (rest : NameMap) (k : String) (v : JVal) :
    setKey ((k', v') :: rest) k v =
      if k' = k then (k', v) :: rest else (k', v') :: setKey rest k v := rfl

theorem mem_setKey (m : NameMap) (k : String) (v : JVal) :
    ∀ kv ∈ setKey m k v, kv = (k, v) ∨ kv ∈ m := by
  induction m with
  | nil =>
    intro kv hkv
    simp only [setKey, List.mem_singleton] at hkv
    exact Or.inl hkv
  | cons p rest ih =>
    rcases p with ⟨k', v'⟩
    intro kv hkv
    by_cases h : k' = k
    · rw [setKey_cons, if_pos h] at hkv
      rcases List.mem_cons.mp hkv with hkv | hkv
      · subst h
        exact Or.inl hkv
      · exact Or.inr (List.mem_cons_of_mem _ hkv)
    · rw [setKey_cons, if_neg h] at hkv
      rcases List.mem_cons.mp hkv with hkv | hkv
      · exact Or.inr (by simp [hkv])
      · rcases ih kv hkv with h' | h'
        · exact Or.inl h'
        · exact Or.inr (List.mem_cons_of_mem _ h')

theorem lookupKey_setKey_self (m : NameMap) (k : String) (v : JVal) :
    lookupKey (setKey m k v) k = some v := by
  induction m with
  | nil => simp [setKey, lookupKey]
  | cons p rest ih =>
    rcases p with ⟨k', v'⟩
    by_cases h : k' = k
    · simp [setKey, lookupKey, h]
    · simp [setKey, lookupKey, h, ih]

/-- One unfolding of the item loop. -/
theorem buildMapLoop_cons (nk ik : String) (item : JVal) (rest : List JVal) (m : NameMap) :
    buildMapLoop nk ik (item :: rest) m =
      if ¬ truthy item = true then buildMapLoop nk ik rest m
      else
        if truthyO (resolveField item nk) = true ∧ truthyO (resolveField item ik) = true then
          match resolveField item nk, resolveField item ik with
          | some nv, some iv =>
            match jsToLowerCase nv with
            | .error e => .error e
            | .ok lowered => buildMapLoop nk ik rest (setKey m lowered iv)
          | _, _ => buildMapLoop nk ik rest m
        else buildMapLoop nk ik rest m := rfl

theorem buildMapLoop_append (nk ik : String) (l1 l2 : List JVal) (m : NameMap) :
    buildMapLoop nk ik (l1 ++ l2) m =
      match buildMapLoop nk ik l1 m with
      | .ok m' => buildMapLoop nk ik l2 m'
      | .error e => .error e := by
  induction l1 generalizing m with
  | nil => rfl
  | cons item rest ih =>
    simp only [List.cons_append]
    rw [buildMapLoop_cons, buildMapLoop_cons]
    split_ifs with h1 h2
    all_goals try exact ih m
    cases hname : resolveField item nk with
    | none => exact ih m
    | some nv =>
      cases hid : resolveField item ik with
      | none => exact ih m
      | some iv =>
        dsimp only
        cases hlow : jsToLowerCase nv with
        | error e => rfl
        | ok lowered => exact ih _

theorem buildMapLoop_skip (nk ik : String) (item : JVal) (rest : List JVal) (m : NameMap)
    (h : truthy item = false ∨ truthyO (resolveField item nk) = false ∨
         truthyO (resolveField item ik) = false) :
    buildMapLoop nk ik (item :: rest) m = buildMapLoop nk ik rest m := by
  conv_lhs => rw [buildMapLoop.eq_def]
  dsimp only
  by_cases hitem : truthy item = true
  · rw [if_neg (by simp [hitem])]
    have hguard : ¬ (truthyO (resolveField item nk) = true ∧
        truthyO (resolveField item ik) = true) := by
      rcases h with h | h | h
      · rw [hitem] at h; cases h
      · exact fun hc => by rw [hc.1] at h; cases h
      · exact fun hc => by rw [hc.2] at h; cases h
    rw [if_neg (by simpa using hguard)]
  · rw [if_pos (by simpa using hitem)]

theorem buildMapLoop_keys (nk ik : String) :
    ∀ (items : List JVal) (m res : NameMap), buildMapLoop nk ik items m = .ok res →
      ∀ kv ∈ res, kv ∈ m ∨ ∃ item ∈ items, ∃ n, resolveField item nk = some (.s n) ∧
        kv.1 = strToLower n := by
  intro items
  induction items with
  | nil =>
    intro m res h kv hkv
    simp only [buildMapLoop, Except.ok.injEq] at h
    subst h
    exact Or.inl hkv
  | cons item rest ih =>
    intro m res h kv hkv
    unfold buildMapLoop at h
    split at h
    · rcases ih m res h kv hkv with h' | ⟨it, hit, hex⟩
      · exact Or.inl h'
      · exact Or.inr ⟨it, by simp [hit], hex⟩
    · split at h
      · split at h
        · next nv iv hname hid =>
          split at h
          · exact absurd h (by simp)
          · next lowered hlower =>
            rcases ih _ res h kv hkv with h' | ⟨it, hit, hex⟩
            · rcases mem_setKey m lowered iv kv h' with h'' | h''
              · refine Or.inr ⟨item, by simp, ?_⟩
                rcases nv with str | fields | _
                · simp only [jsToLowerCase, Except.ok.injEq] at hlower
                  exact ⟨str, hname, by rw [h'', hlower]⟩
                · simp [jsToLowerCase] at hlower
                · simp [jsToLowerCase] at hlower
              · exact Or.inl h''
            · exact Or.inr ⟨it, by simp [hit], hex⟩
        · next hne =>
          rcases ih m res h kv hkv with h' | ⟨it, hit, hex⟩
          · exact Or.inl h'
          · exact Or.inr ⟨it, by simp [hit], hex⟩
      · rcases ih m res h kv hkv with h' | ⟨it, hit, hex⟩
        · exact Or.inl h'
        · exact Or.inr ⟨it, by simp [hit], hex⟩

/-- C6: `createNameToIdMap` yields the empty mapping on a null or empty
item list; an item whose resolved name or identifier is falsy (including a
failed dot-path walk) is skipped without changing the build's outcome;
every key of an `ok` result is the lower-cased resolved name of some item;
and appending an item that resolves overrides the entry at its lower-cased
name with that item's identifier (last write wins). -/
theorem createNameToIdMap_spec (nameKey idKey : String) :
    (createNameToIdMap none nameKey idKey = .ok [] ∧
     createNameToIdMap (some []) nameKey idKey = .ok []) ∧
    (∀ (l1 l2 : List JVal) (bad : JVal),
       truthy bad = false ∨ truthyO (resolveField bad nameKey) = false ∨
         truthyO (resolveField bad idKey) = false →
       createNameToIdMap (some (l1 ++ bad :: l2)) nameKey idKey =
         createNameToIdMap (some (l1 ++ l2)) nameKey idKey) ∧
    (∀ (items : List JVal) (res : NameMap),
       createNameToIdMap (some items) nameKey idKey = .ok res →
       ∀ kv ∈ res, ∃ item ∈ items, ∃ n, resolveField item nameKey = some (.s n) ∧
         kv.1 = strToLower n) ∧
    (∀ (items : List JVal) (item : JVal) (n : String) (iv : JVal) (res : NameMap),
       truthy item = true → resolveField item nameKey = some (.s n) → n ≠ "" →
       resolveField item idKey = some iv → truthy iv = true →
       createNameToIdMap (some (items ++ [item])) nameKey idKey = .ok res →
       lookupKey res (strToLower n) = some iv) := by
  refine ⟨⟨rfl, rfl⟩, ?_, ?_, ?_⟩
  · intro l1 l2 bad hbad
    show buildMapLoop nameKey idKey (l1 ++ bad :: l2) [] =
      buildMapLoop nameKey idKey (l1 ++ l2) []
    rw [buildMapLoop_append, buildMapLoop_append]
    cases buildMapLoop nameKey idKey l1 [] with
    | error e => rfl
    | ok m' => exact buildMapLoop_skip nameKey idKey bad l2 m' hbad
  · intro items res h kv hkv
    rcases buildMapLoop_keys nameKey idKey items [] res h kv hkv with h' | h'
    · cases h'
    · exact h'
  · intro items item n iv res hitem hname hn hid hiv h
    show lookupKey res (strToLower n) = some iv
    rw [show createNameToIdMap (some (items ++ [item])) nameKey idKey =
      buildMapLoop nameKey idKey (items ++ [item]) [] from rfl] at h
    rw [buildMapLoop_append] at h
    cases hfirst : buildMapLoop nameKey idKey items [] with
    | error e => rw [hfirst] at h; cases h
    | ok m' =>
      rw [hfirst] at h
      dsimp only at h
      rw [buildMapLoop_cons] at h
      rw [if_neg (by simp [hitem])] at h
      rw [if_pos (by
        rw [hname, hid]
        exact ⟨by simp [truthyO, truthy, hn], by simp only [truthyO]; exact hiv⟩)] at h
      rw [hname, hid] at h
      dsimp only at h
      rw [show jsToLowerCase (.s n) = .ok (strToLower n) from rfl] at h
      simp only [buildMapLoop, Except.ok.injEq] at h
      rw [← h]
      exact lookupKey_setKey_self m' (strToLower n) iv

/-- C6, witness: the build over one well-formed service row plus a second
row re-using the same title: the later identifier wins, the empty builds
are empty, and a falsy item is skipped. -/
theorem createNameToIdMap_spec_witness :
    createNameToIdMap none "title" "id" = .ok [] ∧
    createNameToIdMap
      (some [JVal.o [("id", .s "svc1"), ("title", .s "Corte")], JVal.nullv,
             JVal.o [("id", .s "svc2"), ("title", .s "Corte")]]) "title" "id" =
      createNameToIdMap
        (some [JVal.o [("id", .s "svc1"), ("title", .s "Corte")],
               JVal.o [("id", .s "svc2"), ("title", .s "Corte")]]) "title" "id" ∧
    lookupKey [("corte", .s "svc2")] "corte" = some (.s "svc2") := by
  refine ⟨(createNameToIdMap_spec "title" "id").1.1, ?_, ?_⟩
  · exact (createNameToIdMap_spec "title" "id").2.1
      [JVal.o [("id", .s "svc1"), ("title", .s "Corte")]]
      [JVal.o [("id", .s "svc2"), ("title", .s "Corte")]]
      JVal.nullv (Or.inl rfl)
  · exact (createNameToIdMap_spec "title" "id").2.2.2
      [JVal.o [("id", .s "svc1"), ("title", .s "Corte")]]
      (JVal.o [("id", .s "svc2"), ("title", .s "Corte")])
      "Corte" (.s "svc2") [("corte", .s "svc2")]
      rfl rfl (by decide) rfl rfl rfl

/-! ## Claim C2 -/

theorem minutesToTime_roundtrip (m : Nat) :
    timeToMinutes (some (minutesToTime m)) = m := by
  simp only [timeToMinutes, minutesToTime]
  omega

theorem mem_insertSorted (t a : HHMM) :
    ∀ l : List HHMM, a ∈ insertSorted t l ↔ a = t ∨ a ∈ l := by
  intro l
  induction l with
  | nil => simp [insertSorted]
  | cons x xs ih =>
    simp only [insertSorted]
    split
    · simp [List.mem_cons]
    · simp only [List.mem_cons, ih]
      tauto

theorem mem_sortSlots (a : HHMM) : ∀ l : List HHMM, a ∈ sortSlots l ↔ a ∈ l := by
  intro l
  induction l with
  | nil => simp [sortSlots]
  | cons x xs ih =>
    simp only [sortSlots, mem_insertSorted, ih, List.mem_cons]

/-- One unfolding of the candidate loop. -/
theorem windowSlotsLoop_succ (existing : List Appointment) (duration fuel slot endM : Nat)
    (allSlots : List HHMM) :
    windowSlotsLoop existing duration (fuel + 1) slot endM allSlots =
      if slot + duration ≤ endM then
        windowSlotsLoop existing duration fuel (slot + 30) endM
          (if ¬ slotOccupied existing slot ∧ ¬ allSlots.contains (minutesToTime slot) then
            allSlots ++ [minutesToTime slot]
          else allSlots)
      else allSlots := rfl

theorem mem_windowSlotsLoop (existing : List Appointment) (duration : Nat) :
    ∀ (fuel slot endM : Nat) (acc : List HHMM) (t : HHMM),
      t ∈ windowSlotsLoop existing duration fuel slot endM acc →
      t ∈ acc ∨ ∃ m, t = minutesToTime m ∧ slotOccupied existing m = false := by
  intro fuel
  induction fuel with
  | zero => exact fun slot endM acc t h => Or.inl h
  | succ fuel ih =>
    intro slot endM acc t h
    rw [windowSlotsLoop_succ] at h
    split at h
    · rcases ih _ _ _ _ h with h' | h'
      · split at h'
        · next hfree =>
          rcases List.mem_append.mp h' with h'' | h''
          · exact Or.inl h''
          · refine Or.inr ⟨slot, List.mem_singleton.mp h'', ?_⟩
            rcases hfree with ⟨hocc, _⟩
            simpa using hocc
        · exact Or.inl h'
      · exact Or.inr h'
    · exact Or.inl h

theorem mem_windowFold (existing : List Appointment) (duration : Nat) :
    ∀ (avails : List AvailabilityWindow) (t : HHMM),
      t ∈ windowFold existing duration avails →
      ∃ m, t = minutesToTime m ∧ slotOccupied existing m = false := by
  have general : ∀ (avails : List AvailabilityWindow) (acc : List HHMM) (t : HHMM),
      t ∈ avails.foldl
        (fun allSlots availability =>
          windowSlotsLoop existing duration
            (timeToMinutes (some availability.end_time) + 1)
            (timeToMinutes (some availability.start_time))
            (timeToMinutes (some availability.end_time)) allSlots) acc →
      t ∈ acc ∨ ∃ m, t = minutesToTime m ∧ slotOccupied existing m = false := by
    intro avails
    induction avails with
    | nil => exact fun acc t h => Or.inl h
    | cons a rest ih =>
      intro acc t h
      rcases ih _ t h with h' | h'
      · rcases mem_windowSlotsLoop existing duration _ _ _ _ _ h' with h'' | h''
        · exact Or.inl h''
        · exact Or.inr h''
      · exact Or.inr h'
  intro avails t h
  rcases general avails [] t h with h' | h'
  · cases h'
  · exact h'

/-- What an `ok` result of the slot computation can be: empty, or the
sorted window fold. -/
theorem getAvailableSlotsCore_ok (db : Database) (scheduleId : String)
    (date : Option Nat) (duration : Nat) (slots : List HHMM)
    (h : getAvailableSlotsCore db scheduleId date duration = .ok slots) :
    slots = [] ∨
    slots = sortSlots (windowFold (nonCanceledApptsOf db scheduleId date) duration
      (matchingAvailsOf db scheduleId date)) := by
  unfold getAvailableSlotsCore at h
  split_ifs at h <;> cases h
  · exact Or.inl rfl
  · exact Or.inl rfl
  · exact Or.inr rfl

/-- C2: every time `getAvailableSlots` returns lies outside the `[start,
end)` interval of every existing non-canceled appointment of that schedule
and date, regardless of provider; and when the schedule has no active
provider, or no availability window matches the date's weekday, the result
is empty. -/
theorem getAvailableSlots_spec (db : Database) (scheduleId : String)
    (date : Option Nat) (serviceId : Option JVal) (duration : Nat)
    (isByArrivalTime : Bool) :
    (∀ t ∈ getAvailableSlots db scheduleId date serviceId duration isByArrivalTime,
       ∀ apt ∈ db.appointments,
         apt.schedule_id = scheduleId → some apt.date = date → apt.status ≠ "canceled" →
         ¬ (timeToMinutes apt.start_time ≤ timeToMinutes (some t) ∧
            timeToMinutes apt.end_time > timeToMinutes (some t))) ∧
    ((activeProvidersOf db scheduleId).isEmpty = true →
       getAvailableSlots db scheduleId date serviceId duration isByArrivalTime = []) ∧
    ((matchingAvailsOf db scheduleId date).isEmpty = true →
       getAvailableSlots db scheduleId date serviceId duration isByArrivalTime = []) := by
  refine ⟨?_, ?_, ?_⟩
  · intro t ht apt hapt hsched hdate hstatus
    unfold getAvailableSlots at ht
    cases hcore : getAvailableSlotsCore db scheduleId date duration with
    | error e => rw [hcore] at ht; cases ht
    | ok slots =>
      rw [hcore] at ht
      rcases getAvailableSlotsCore_ok db scheduleId date duration slots hcore with h | h
      · rw [h] at ht; cases ht
      · rw [h, mem_sortSlots] at ht
        obtain ⟨m, rfl, hfree⟩ := mem_windowFold _ _ _ _ ht
        rw [minutesToTime_roundtrip]
        have hmem : apt ∈ nonCanceledApptsOf db scheduleId date := by
          unfold nonCanceledApptsOf
          rw [List.mem_filter]
          exact ⟨hapt, by simp [hsched, hdate, hstatus]⟩
        intro hcontra
        have : slotOccupied (nonCanceledApptsOf db scheduleId date) m = true := by
          unfold slotOccupied
          rw [List.any_eq_true]
          exact ⟨apt, hmem, by simpa using hcontra⟩
        rw [this] at hfree
        cases hfree
  · intro hempty
    unfold getAvailableSlots getAvailableSlotsCore
    rw [if_pos hempty]
    by_cases hfail : db.failProviders <;> simp [hfail]
  · intro hempty
    unfold getAvailableSlots getAvailableSlotsCore
    by_cases hfail1 : db.failProviders
    · simp [hfail1]
    · by_cases hp : (activeProvidersOf db scheduleId).isEmpty
      · simp [hfail1, hp]
      · by_cases hfail2 : db.failAvailability
        · simp [hfail1, hp, hfail2]
        · simp [hfail1, hp, hfail2, hempty]

/-- C2, witness: with the 09:00–09:30 appointment booked, 09:30 is offered
and indeed avoids the appointment's interval; a schedule with no provider
yields no slots. -/
theorem getAvailableSlots_spec_witness :
    (¬ (timeToMinutes apt0.start_time ≤ timeToMinutes (some ⟨9, 30⟩) ∧
        timeToMinutes apt0.end_time > timeToMinutes (some ⟨9, 30⟩))) ∧
    getAvailableSlots { db0 with schedule_providers := [] } "s1" (some 3)
      (some (.s "svc1")) 30 false = [] := by
  constructor
  · exact (getAvailableSlots_spec { db0 with appointments := [apt0] } "s1" (some 3)
      (some (.s "svc1")) 30 false).1 ⟨9, 30⟩ (by decide) apt0 (by simp) rfl rfl
      (by decide)
  · exact (getAvailableSlots_spec { db0 with schedule_providers := [] } "s1" (some 3)
      (some (.s "svc1")) 30 false).2.1 (by decide)

/-! ## Claim C9 -/

/-- C9: when any of the three storage queries inside the slot computation
rejects, `getAvailableSlots` returns the empty list (for any service and
duration), and `checkAvailability` without a requested time then reports a
successful result with zero available times and the same "no available
slots" message a genuinely full day produces. -/
theorem getAvailableSlots_failure_indistinguishable (db : Database)
    (scheduleId : String) (date : Option Nat) (serviceId : Option JVal)
    (duration : Nat) (isByArrivalTime : Bool) (sched : Schedule)
    (hfail : db.failProviders = true ∨ db.failAvailability = true ∨
      db.failAppointments = true)
    (hsched : single (db.schedules.filter (fun s => s.id = scheduleId)) = some sched) :
    getAvailableSlots db scheduleId date serviceId duration isByArrivalTime = [] ∧
    checkAvailability db scheduleId date none serviceId =
      { success := true
        available := some false
        date := date
        formatted_date := some (formatDateBR date)
        available_times := some []
        message := "No available slots on " ++ formatDateBR date } := by
  have hslots : ∀ (sid' : Option JVal) (dur : Nat) (b' : Bool),
      getAvailableSlots db scheduleId date sid' dur b' = [] := by
    intro sid' dur b'
    unfold getAvailableSlots getAvailableSlotsCore
    rcases hfail with h | h | h <;> split_ifs <;> simp_all
  refine ⟨hslots serviceId duration isByArrivalTime, ?_⟩
  unfold checkAvailability
  rw [hsched]
  dsimp only
  rw [hslots serviceId (serviceDurationOf db serviceId) (serviceByArrivalOf db serviceId)]
  simp

/-- C9, witness: the failure theorem applied at the concrete store with a
rejecting appointments query. -/
theorem getAvailableSlots_failure_indistinguishable_witness :
    getAvailableSlots { db0 with failAppointments := true } "s1" (some 3)
      (some (.s "svc1")) 30 false = [] ∧
    checkAvailability { db0 with failAppointments := true } "s1" (some 3) none
      (some (.s "svc1")) =
      { success := true
        available := some false
        date := some 3
        formatted_date := some (formatDateBR (some 3))
        available_times := some []
        message := "No available slots on " ++ formatDateBR (some 3) } :=
  getAvailableSlots_failure_indistinguishable { db0 with failAppointments := true }
    "s1" (some 3) (some (.s "svc1")) 30 false sched0
    (Or.inr (Or.inr rfl)) rfl

/-! ## Claim C1 -/

/-- C1: when the requested time is not among the slots the availability
calculator computes for that date and service, `createAppointment` returns
an unsuccessful envelope whose message lists the currently available
alternative times, and the store is unchanged — no appointment row is
inserted.  (The schedule referenced must exist, as the availability
re-check reports its absence through a different error message.) -/
theorem createAppointment_rejects_unavailable (db : Database) (now : Nat)
    (scheduleId customerId : String) (date : Nat) (t : HHMM)
    (serviceId : Option JVal) (notes : Option String) (providerId : Option JVal)
    (session : Session) (sched : Schedule)
    (hsched : single (db.schedules.filter (fun s => s.id = scheduleId)) = some sched)
    (hmem : t ∉ getAvailableSlots db scheduleId (some date) serviceId
      (serviceDurationOf db serviceId) (serviceByArrivalOf db serviceId)) :
    (createAppointment db now scheduleId customerId date (some t) serviceId notes
      providerId session).1.success = false ∧
    (createAppointment db now scheduleId customerId date (some t) serviceId notes
      providerId session).1.message =
      "The requested time slot is not available. Available times: " ++
        joinTimes (getAvailableSlots db scheduleId (some date) serviceId
          (serviceDurationOf db serviceId) (serviceByArrivalOf db serviceId)) ∧
    (createAppointment db now scheduleId customerId date (some t) serviceId notes
      providerId session).2 = db := by
  have hcontains : (getAvailableSlots db scheduleId (some date) serviceId
      (serviceDurationOf db serviceId) (serviceByArrivalOf db serviceId)).contains t
        = false := by
    cases h : (getAvailableSlots db scheduleId (some date) serviceId
      (serviceDurationOf db serviceId) (serviceByArrivalOf db serviceId)).contains t
    · rfl
    · exact absurd (by simpa using h) hmem
  have hca : checkAvailability db scheduleId (some date) (some t) serviceId =
      { success := true
        available := some false
        date := some date
        formatted_date := some (formatDateBR (some date))
        requested_time := some t
        available_times := some (getAvailableSlots db scheduleId (some date) serviceId
          (serviceDurationOf db serviceId) (serviceByArrivalOf db serviceId))
        message := "No availability on " ++ formatDateBR (some date) ++ " at " ++
          hhmmStr t } := by
    unfold checkAvailability
    rw [hsched]
    dsimp only
    rw [hcontains]
    simp
  unfold createAppointment
  rw [hca]
  simp

/-- C1, witness: booking 11:00 on a day whose computed slots are 09:00 and
09:30 is refused with the alternatives listed and no row inserted. -/
theorem createAppointment_rejects_unavailable_witness :
    (createAppointment db0 5 "s1" "c1" 3 (some ⟨11, 0⟩) (some (.s "svc1")) none none
      session0).1.success = false ∧
    (createAppointment db0 5 "s1" "c1" 3 (some ⟨11, 0⟩) (some (.s "svc1")) none none
      session0).1.message =
      "The requested time slot is not available. Available times: " ++
        joinTimes (getAvailableSlots db0 "s1" (some 3) (some (.s "svc1"))
          (serviceDurationOf db0 (some (.s "svc1")))
          (serviceByArrivalOf db0 (some (.s "svc1")))) ∧
    (createAppointment db0 5 "s1" "c1" 3 (some ⟨11, 0⟩) (some (.s "svc1")) none none
      session0).2 = db0 :=
  createAppointment_rejects_unavailable db0 5 "s1" "c1" 3 ⟨11, 0⟩ (some (.s "svc1"))
    none none session0 sched0 rfl (by decide)

/-! ## Claim C5 -/

/-- C5: cancelling by identifier when no appointment carries that id, or
the one that does belongs to another customer or is not in
scheduled/confirmed state (in particular, is already canceled), returns an
unsuccessful envelope with the not-found message and leaves the store
untouched. -/
theorem deleteAppointment_invalid_id (db : Database) (now : Nat) (aid : String)
    (customerId : String) (date : Option Nat) (scheduleId : Option String)
    (haid : aid ≠ "")
    (hnone : ∀ apt ∈ db.appointments, apt.id = aid →
      apt.customer_id ≠ customerId ∨
        (apt.status ≠ "scheduled" ∧ apt.status ≠ "confirmed")) :
    (deleteAppointment db now (some aid) customerId date scheduleId).1.success = false ∧
    (deleteAppointment db now (some aid) customerId date scheduleId).1.message =
      "Appointment not found with ID " ++ aid ++
        " or it doesn\x27t belong to this customer" ∧
    (deleteAppointment db now (some aid) customerId date scheduleId).2 = db := by
  have hfilter : db.appointments.filter (fun apt =>
      apt.id = aid ∧ apt.customer_id = customerId ∧
      (apt.status = "scheduled" ∨ apt.status = "confirmed")) = [] := by
    rw [List.filter_eq_nil_iff]
    intro apt hmem
    simp only [decide_eq_true_eq, not_and, not_or]
    intro hid hcust
    rcases hnone apt hmem hid with h | h
    · exact absurd hcust h
    · exact h
  unfold deleteAppointment
  rw [if_pos (by simp [truthyS, haid])]
  simp only [Option.getD_some]
  rw [hfilter]
  exact ⟨rfl, rfl, rfl⟩

/-- C5, witness: cancelling the unknown identifier `zzz` against a store
with no matching appointment fails with the not-found message and leaves
the appointment table as it was. -/
theorem deleteAppointment_invalid_id_witness :
    (deleteAppointment db0 7 (some "zzz") "c1" none none).1.success = false ∧
    (deleteAppointment db0 7 (some "zzz") "c1" none none).1.message =
      "Appointment not found with ID zzz or it doesn\x27t belong to this customer" ∧
    (deleteAppointment db0 7 (some "zzz") "c1" none none).2 = db0 :=
  deleteAppointment_invalid_id db0 7 "zzz" "c1" none none (by decide)
    (fun apt hapt _ => by simp [db0] at hapt)

/-! ## Claim C4 -/

/-- A well-formed dispatch envelope status. -/
def wfStatus (r : ToolResult) : Prop :=
  r.status = "success" ∨ r.status = "error"

/-- The external-interface contract of the three action executors: a result
they resolve with is a proper envelope. -/
def ExecutorsWF (ex : Executors) : Prop :=
  (∀ a args s r, ex.processUpdateCustomerAction a args s = .ok r → wfStatus r) ∧
  (∀ a args s r, ex.processUpdateChatAction a args s = .ok r → wfStatus r) ∧
  (∀ a args s r, ex.processStartFlowAction a args s = .ok r → wfStatus r)

theorem processCheckScheduleAction_wf (db : Database) (now : Nat)
    (action : ScheduleActionPayload) (args : Args) (session : Session) :
    wfStatus (processCheckScheduleAction db now action args session).1 := by
  unfold processCheckScheduleAction
  dsimp only
  repeat' split
  all_goals simp [wfStatus]

theorem resolveServiceStep_ret_wf (db : Database) (cache : Cache) (now : Nat)
    (session : Session) (scheduleId : String) (args : Args) (r : ToolResult)
    (h : resolveServiceStep db cache now session scheduleId args = .ret r) :
    r.status = "error" := by
  unfold resolveServiceStep at h
  dsimp only at h
  repeat' split at h
  all_goals cases h <;> rfl

theorem resolveProviderStep_ret_wf (db : Database) (cache : Cache) (now : Nat)
    (session : Session) (scheduleId : String) (args : Args) (r : ToolResult)
    (h : resolveProviderStep db cache now session scheduleId args = .ret r) :
    r.status = "error" := by
  unfold resolveProviderStep at h
  dsimp only at h
  repeat' split at h
  all_goals cases h <;> rfl

theorem resolveTeamStep_ret_wf (db : Database) (cache : Cache) (now : Nat)
    (session : Session) (args : Args) (r : ToolResult)
    (h : resolveTeamStep db cache now session args = .ret r) :
    r.status = "error" := by
  unfold resolveTeamStep at h
  dsimp only at h
  repeat' split at h
  all_goals cases h <;> rfl

theorem resolveFlowStep_ret_wf (db : Database) (cache : Cache) (now : Nat)
    (session : Session) (args : Args) (r : ToolResult)
    (h : resolveFlowStep db cache now session args = .ret r) :
    r.status = "error" := by
  unfold resolveFlowStep at h
  dsimp only at h
  repeat' split at h
  all_goals cases h <;> rfl

theorem handleSystemToolCallCore_ok_wf (db : Database) (cache : Cache) (now : Nat)
    (tool : ToolCall) (args : Args) (actionsSystem : List SystemAction)
    (session : Session) (ex : Executors) (hex : ExecutorsWF ex)
    (r : ToolResult) (a : Args) (c : Cache) (d : Database)
    (h : handleSystemToolCallCore db cache now tool args actionsSystem session ex =
      (.ok r, a, c, d)) :
    wfStatus r := by
  unfold handleSystemToolCallCore at h
  dsimp only at h
  split at h
  · simp at h
  · split at h
    · split at h
      · simp only [Prod.mk.injEq] at h
        obtain ⟨h1, -⟩ := h
        cases h1
        exact Or.inr rfl
      · split at h
        · simp only [Prod.mk.injEq] at h
          obtain ⟨h1, -⟩ := h
          cases h1
          exact Or.inr rfl
        · split at h
          · next hret =>
            simp only [Prod.mk.injEq] at h
            obtain ⟨h1, -⟩ := h
            cases h1
            exact Or.inr (resolveServiceStep_ret_wf _ _ _ _ _ _ _ hret)
          · simp at h
          · split at h
            · next hret =>
              simp only [Prod.mk.injEq] at h
              obtain ⟨h1, -⟩ := h
              cases h1
              exact Or.inr (resolveProviderStep_ret_wf _ _ _ _ _ _ _ hret)
            · simp at h
            · simp only [Prod.mk.injEq] at h
              obtain ⟨h1, -⟩ := h
              cases h1
              exact processCheckScheduleAction_wf _ _ _ _ _
    · split at h
      · next hcall =>
        simp only [Prod.mk.injEq] at h
        obtain ⟨h1, -⟩ := h
        cases h1
        exact hex.1 _ _ _ _ hcall
      · simp at h
    · split at h
      · next hret =>
        simp only [Prod.mk.injEq] at h
        obtain ⟨h1, -⟩ := h
        cases h1
        exact Or.inr (resolveTeamStep_ret_wf _ _ _ _ _ _ hret)
      · simp at h
      · split at h
        · next hcall =>
          simp only [Prod.mk.injEq] at h
          obtain ⟨h1, -⟩ := h
          cases h1
          exact hex.2.1 _ _ _ _ hcall
        · simp at h
    · split at h
      · simp only [Prod.mk.injEq] at h
        obtain ⟨h1, -⟩ := h
        cases h1
        exact Or.inr rfl
      · split at h
        · next hret =>
          simp only [Prod.mk.injEq] at h
          obtain ⟨h1, -⟩ := h
          cases h1
          exact Or.inr (resolveFlowStep_ret_wf _ _ _ _ _ _ hret)
        · simp at h
        · split at h
          · next hcall =>
            simp only [Prod.mk.injEq] at h
            obtain ⟨h1, -⟩ := h
            cases h1
            exact hex.2.2 _ _ _ _ hcall
          · simp at h
    · simp only [Prod.mk.injEq] at h
      obtain ⟨h1, -⟩ := h
      cases h1
      exact Or.inr rfl

/-- C4: dispatch never lets an exception escape — its total wrapper always
returns an envelope whose status is `success` or `error` (given executors
honouring the envelope contract on the results they resolve with; rejecting
executors are caught), and in particular a tool name matching no
configured action is converted into an error envelope rather than a crash. -/
theorem handleSystemToolCall_wf (db : Database) (cache : Cache) (now : Nat)
    (tool : ToolCall) (args : Args) (actionsSystem : List SystemAction)
    (session : Session) (ex : Executors) (hex : ExecutorsWF ex) :
    wfStatus (handleSystemToolCall db cache now tool args actionsSystem session ex).1 ∧
    (actionsSystem.find? (fun action => action.name = tool.name) = none →
      (handleSystemToolCall db cache now tool args actionsSystem session ex).1.status
        = "error") := by
  constructor
  · rcases hcore : handleSystemToolCallCore db cache now tool args actionsSystem session ex
      with ⟨out, a, c, d⟩
    cases out with
    | ok r =>
      unfold handleSystemToolCall
      rw [hcore]
      exact handleSystemToolCallCore_ok_wf db cache now tool args actionsSystem session
        ex hex r a c d hcore
    | thrown e =>
      unfold handleSystemToolCall
      rw [hcore]
      exact Or.inr rfl
  · intro hfind
    unfold handleSystemToolCall handleSystemToolCallCore
    rw [hfind]

/-- The trivially well-behaved executors the witnesses run with. -/
def ex0 : Executors :=
  { processUpdateCustomerAction := fun _ _ _ => .ok { status := "success", message := "ok" }
    processUpdateChatAction := fun _ _ _ => .ok { status := "success", message := "ok" }
    processStartFlowAction := fun _ _ _ => .ok { status := "success", message := "ok" } }

theorem ex0_wf : ExecutorsWF ex0 :=
  ⟨fun _ _ _ r h => by cases h; exact Or.inl rfl,
   fun _ _ _ r h => by cases h; exact Or.inl rfl,
   fun _ _ _ r h => by cases h; exact Or.inl rfl⟩

/-- C4, witness: a concrete dispatch of a schedule tool call returns a
well-formed envelope, and a call whose tool name matches no configured
action yields a caught error envelope. -/
theorem handleSystemToolCall_wf_witness :
    wfStatus (handleSystemToolCall db0 [] 5 ⟨"ag"⟩
      { operation := some "checkAvailability", date := some 3 }
      [{ name := "ag", type := "schedule", config := { schedule := some "s1" } }]
      session0 ex0).1 ∧
    (handleSystemToolCall db0 [] 5 ⟨"missing"⟩ {} [] session0 ex0).1.status = "error" :=
  ⟨(handleSystemToolCall_wf db0 [] 5 ⟨"ag"⟩
      { operation := some "checkAvailability", date := some 3 }
      [{ name := "ag", type := "schedule", config := { schedule := some "s1" } }]
      session0 ex0 ex0_wf).1,
   (handleSystemToolCall_wf db0 [] 5 ⟨"missing"⟩ {} [] session0 ex0 ex0_wf).2 rfl⟩

/-! ## Claim C10 -/

/-- Agreement of two argument objects on every field other than the four
resolved-identifier slots. -/
def argsIdFrame (a b : Args) : Prop :=
  b.operation = a.operation ∧ b.date = a.date ∧ b.time = a.time ∧
  b.service_name = a.service_name ∧ b.provider_name = a.provider_name ∧
  b.team_name = a.team_name ∧ b.flow_name = a.flow_name ∧ b.title = a.title ∧
  b.status = a.status ∧ b.notes = a.notes ∧ b.appointment_id = a.appointment_id ∧
  b.name = a.name

theorem resolveServiceStep_cont_shape (db : Database) (cache : Cache) (now : Nat)
    (session : Session) (scheduleId : String) (args args' : Args) (cache' : Cache)
    (h : resolveServiceStep db cache now session scheduleId args = .cont (args', cache')) :
    ∃ v, args' = { args with service_id := v } := by
  unfold resolveServiceStep at h
  dsimp only at h
  repeat' split at h
  all_goals cases h
  all_goals exact ⟨_, rfl⟩

theorem resolveProviderStep_cont_shape (db : Database) (cache : Cache) (now : Nat)
    (session : Session) (scheduleId : String) (args args' : Args) (cache' : Cache)
    (h : resolveProviderStep db cache now session scheduleId args = .cont (args', cache')) :
    ∃ v, args' = { args with provider_id := v } := by
  unfold resolveProviderStep at h
  dsimp only at h
  repeat' split at h
  all_goals cases h
  all_goals exact ⟨_, rfl⟩

theorem resolveTeamStep_cont_shape (db : Database) (cache : Cache) (now : Nat)
    (session : Session) (args args' : Args) (cache' : Cache)
    (h : resolveTeamStep db cache now session args = .cont (args', cache')) :
    ∃ v, args' = { args with team_id := v } := by
  unfold resolveTeamStep at h
  dsimp only at h
  repeat' split at h
  all_goals cases h
  all_goals exact ⟨_, rfl⟩

theorem resolveFlowStep_cont_shape (db : Database) (cache : Cache) (now : Nat)
    (session : Session) (args args' : Args) (cache' : Cache)
    (h : resolveFlowStep db cache now session args = .cont (args', cache')) :
    ∃ v, args' = { args with flow_id := v } := by
  unfold resolveFlowStep at h
  dsimp only at h
  repeat' split at h
  all_goals cases h
  all_goals exact ⟨_, rfl⟩

/-- The argument object dispatch hands back only ever differs from the one
handed in at the four resolved-identifier slots. -/
theorem handleSystemToolCallCore_args_shape (db : Database) (cache : Cache) (now : Nat)
    (tool : ToolCall) (args : Args) (actionsSystem : List SystemAction)
    (session : Session) (ex : Executors) :
    ∃ v w x y,
      (handleSystemToolCallCore db cache now tool args actionsSystem session ex).2.1 =
        { args with service_id := v, provider_id := w, team_id := x, flow_id := y } := by
  have base : args = { args with service_id := args.service_id, provider_id := args.provider_id, team_id := args.team_id, flow_id := args.flow_id } := rfl
  unfold handleSystemToolCallCore
  dsimp only
  split
  · exact ⟨args.service_id, args.provider_id, args.team_id, args.flow_id, base⟩
  · split
    · split
      · exact ⟨args.service_id, args.provider_id, args.team_id, args.flow_id, base⟩
      · split
        · exact ⟨args.service_id, args.provider_id, args.team_id, args.flow_id, base⟩
        · split
          · exact ⟨args.service_id, args.provider_id, args.team_id, args.flow_id, base⟩
          · exact ⟨args.service_id, args.provider_id, args.team_id, args.flow_id, base⟩
          · next args1 cache1 hsvc =>
            obtain ⟨v, hv⟩ := resolveServiceStep_cont_shape _ _ _ _ _ _ _ _ hsvc
            split
            · exact ⟨v, args.provider_id, args.team_id, args.flow_id, by rw [hv]⟩
            · exact ⟨v, args.provider_id, args.team_id, args.flow_id, by rw [hv]⟩
            · next args2 cache2 hprov =>
              obtain ⟨w, hw⟩ := resolveProviderStep_cont_shape _ _ _ _ _ _ _ _ hprov
              exact ⟨v, w, args.team_id, args.flow_id, by rw [hw, hv]⟩
    · split
      · exact ⟨args.service_id, args.provider_id, args.team_id, args.flow_id, base⟩
      · exact ⟨args.service_id, args.provider_id, args.team_id, args.flow_id, base⟩
    · split
      · exact ⟨args.service_id, args.provider_id, args.team_id, args.flow_id, base⟩
      · exact ⟨args.service_id, args.provider_id, args.team_id, args.flow_id, base⟩
      · next args1 cache1 hteam =>
        obtain ⟨x, hx⟩ := resolveTeamStep_cont_shape _ _ _ _ _ _ _ hteam
        split
        · exact ⟨args.service_id, args.provider_id, x, args.flow_id, by rw [hx]⟩
        · exact ⟨args.service_id, args.provider_id, x, args.flow_id, by rw [hx]⟩
    · split
      · exact ⟨args.service_id, args.provider_id, args.team_id, args.flow_id, base⟩
      · split
        · exact ⟨args.service_id, args.provider_id, args.team_id, args.flow_id, base⟩
        · exact ⟨args.service_id, args.provider_id, args.team_id, args.flow_id, base⟩
        · next args1 cache1 hflow =>
          obtain ⟨y, hy⟩ := resolveFlowStep_cont_shape _ _ _ _ _ _ _ hflow
          split
          · exact ⟨args.service_id, args.provider_id, args.team_id, y, by rw [hy]⟩
          · exact ⟨args.service_id, args.provider_id, args.team_id, y, by rw [hy]⟩
    · exact ⟨args.service_id, args.provider_id, args.team_id, args.flow_id, base⟩

theorem resolveServiceStep_skip (db : Database) (cache : Cache) (now : Nat)
    (session : Session) (scheduleId : String) (args : Args)
    (hsn : truthyS args.service_name = false) :
    resolveServiceStep db cache now session scheduleId args = .cont (args, cache) := by
  unfold resolveServiceStep
  rw [if_pos (by simp [hsn])]

theorem resolveServiceStep_cache_hit (db : Database) (cache : Cache) (now : Nat)
    (session : Session) (scheduleId : String) (args : Args) (serviceMap : NameMap)
    (v : JVal) (hsn : truthyS args.service_name = true)
    (hcache : getCachedMap cache session.organization_id .services (some scheduleId) now
      = some serviceMap)
    (hlookup : lookupKey serviceMap (strToLower (args.service_name.getD "")) = some v)
    (hv : truthy v = true) :
    resolveServiceStep db cache now session scheduleId args =
      .cont ({ args with service_id := some v }, cache) := by
  unfold resolveServiceStep
  rw [if_neg (by simp [hsn])]
  dsimp only
  rw [hcache]
  dsimp only
  rw [hlookup]
  rw [if_pos (by simp [truthyO, hv])]

theorem resolveProviderStep_cache_hit (db : Database) (cache : Cache) (now : Nat)
    (session : Session) (scheduleId : String) (args : Args) (providerMap : NameMap)
    (v : JVal) (hpn : truthyS args.provider_name = true)
    (hcache : getCachedMap cache session.organization_id .providers (some scheduleId) now
      = some providerMap)
    (hlookup : lookupKey providerMap (strToLower (args.provider_name.getD "")) = some v)
    (hv : truthy v = true) :
    resolveProviderStep db cache now session scheduleId args =
      .cont ({ args with provider_id := some v }, cache) := by
  unfold resolveProviderStep
  rw [if_neg (by simp [hpn])]
  dsimp only
  rw [hcache]
  dsimp only
  rw [hlookup]
  rw [if_pos (by simp [truthyO, hv])]

theorem resolveTeamStep_cache_hit (db : Database) (cache : Cache) (now : Nat)
    (session : Session) (args : Args) (teamMap : NameMap) (v : JVal)
    (htn : truthyS args.team_name = true)
    (hcache : getCachedMap cache session.organization_id .teams none now = some teamMap)
    (hlookup : lookupKey teamMap (strToLower (args.team_name.getD "")) = some v)
    (hv : truthy v = true) :
    resolveTeamStep db cache now session args =
      .cont ({ args with team_id := some v }, cache) := by
  unfold resolveTeamStep
  rw [if_neg (by simp [htn])]
  dsimp only
  rw [hcache]
  dsimp only
  rw [hlookup]
  rw [if_pos (by simp [truthyO, hv])]

theorem resolveFlowStep_cache_hit (db : Database) (cache : Cache) (now : Nat)
    (session : Session) (args : Args) (flowMap : NameMap) (v : JVal)
    (hcache : getCachedMap cache session.organization_id .flows none now = some flowMap)
    (hlookup : lookupKey flowMap (strToLower (args.flow_name.getD "")) = some v)
    (hv : truthy v = true) :
    resolveFlowStep db cache now session args =
      .cont ({ args with flow_id := some v }, cache) := by
  unfold resolveFlowStep
  dsimp only
  rw [hcache]
  dsimp only
  rw [hlookup]
  rw [if_pos (by simp [truthyO, hv])]

/-- Dispatch's catch-all preserves the argument object the try-block left
behind. -/
theorem handleSystemToolCall_args_eq_core (db : Database) (cache : Cache) (now : Nat)
    (tool : ToolCall) (args : Args) (actionsSystem : List SystemAction)
    (session : Session) (ex : Executors) :
    (handleSystemToolCall db cache now tool args actionsSystem session ex).2.1 =
      (handleSystemToolCallCore db cache now tool args actionsSystem session ex).2.1 := by
  unfold handleSystemToolCall
  rcases hcore : handleSystemToolCallCore db cache now tool args actionsSystem session ex
    with ⟨out, a, c, d⟩
  cases out <;> rfl

/-- C10: dispatch returns the caller's argument object mutated only in the
four resolved-identifier slots (`service_id`, `provider_id`, `team_id`,
`flow_id`); and when a free-text name resolves (here through a cache hit
to a truthy identifier), the resolved identifier is indeed written onto
the argument object — shown for each of the four slots. -/
theorem handleSystemToolCall_mutates_only_resolved_ids (db : Database)
    (cache : Cache) (now : Nat) (tool : ToolCall) (args : Args)
    (actionsSystem : List SystemAction) (session : Session) (ex : Executors) :
    argsIdFrame args
      (handleSystemToolCall db cache now tool args actionsSystem session ex).2.1 ∧
    (∀ action schedule0 tail serviceMap v,
      actionsSystem.find? (fun action => action.name = tool.name) = some action →
      action.type = "schedule" →
      truthyS action.config.schedule = true →
      db.schedules.filter (fun s => s.organization_id = session.organization_id ∧
        s.id = action.config.schedule.getD "" ∧ s.status = "active")
        = schedule0 :: tail →
      truthyS args.service_name = true →
      getCachedMap cache session.organization_id .services (some schedule0.id) now
        = some serviceMap →
      lookupKey serviceMap (strToLower (args.service_name.getD "")) = some v →
      truthy v = true →
      (handleSystemToolCall db cache now tool args actionsSystem session
        ex).2.1.service_id = some v) ∧
    (∀ action schedule0 tail providerMap v,
      actionsSystem.find? (fun action => action.name = tool.name) = some action →
      action.type = "schedule" →
      truthyS action.config.schedule = true →
      db.schedules.filter (fun s => s.organization_id = session.organization_id ∧
        s.id = action.config.schedule.getD "" ∧ s.status = "active")
        = schedule0 :: tail →
      truthyS args.service_name = false →
      truthyS args.provider_name = true →
      getCachedMap cache session.organization_id .providers (some schedule0.id) now
        = some providerMap →
      lookupKey providerMap (strToLower (args.provider_name.getD "")) = some v →
      truthy v = true →
      (handleSystemToolCall db cache now tool args actionsSystem session
        ex).2.1.provider_id = some v) ∧
    (∀ action teamMap v,
      actionsSystem.find? (fun action => action.name = tool.name) = some action →
      action.type = "update_chat" →
      truthyS args.team_name = true →
      getCachedMap cache session.organization_id .teams none now = some teamMap →
      lookupKey teamMap (strToLower (args.team_name.getD "")) = some v →
      truthy v = true →
      (handleSystemToolCall db cache now tool args actionsSystem session
        ex).2.1.team_id = some v) ∧
    (∀ action flowMap v,
      actionsSystem.find? (fun action => action.name = tool.name) = some action →
      action.type = "start_flow" →
      truthyS args.flow_name = true →
      getCachedMap cache session.organization_id .flows none now = some flowMap →
      lookupKey flowMap (strToLower (args.flow_name.getD "")) = some v →
      truthy v = true →
      (handleSystemToolCall db cache now tool args actionsSystem session
        ex).2.1.flow_id = some v) := by
  refine ⟨?_, ?_, ?_, ?_, ?_⟩
  · obtain ⟨v, w, x, y, hshape⟩ :=
      handleSystemToolCallCore_args_shape db cache now tool args actionsSystem session ex
    rw [handleSystemToolCall_args_eq_core, hshape]
    exact ⟨rfl, rfl, rfl, rfl, rfl, rfl, rfl, rfl, rfl, rfl, rfl, rfl⟩
  · intro action schedule0 tail serviceMap v hfind htype hcs hsched hsn hcache hlookup hv
    rw [handleSystemToolCall_args_eq_core]
    unfold handleSystemToolCallCore
    rw [hfind]
    dsimp only
    split
    case h_1 =>
      rw [if_neg (by simp [hcs])]
      try dsimp only
      rw [hsched]
      try dsimp only
      rw [resolveServiceStep_cache_hit db cache now session schedule0.id args serviceMap
        v hsn hcache hlookup hv]
      try dsimp only
      rcases hprov : resolveProviderStep db cache now session schedule0.id
          { args with service_id := some v } with r | e | p
      · rfl
      · rfl
      · rcases p with ⟨args2, cache2⟩
        obtain ⟨w, hw⟩ := resolveProviderStep_cont_shape _ _ _ _ _ _ _ _ hprov
        try dsimp only
        rw [hw]
    all_goals simp_all
  · intro action schedule0 tail providerMap v hfind htype hcs hsched hsn hpn hcache
      hlookup hv
    rw [handleSystemToolCall_args_eq_core]
    unfold handleSystemToolCallCore
    rw [hfind]
    dsimp only
    split
    case h_1 =>
      rw [if_neg (by simp [hcs])]
      try dsimp only
      rw [hsched]
      try dsimp only
      rw [resolveServiceStep_skip db cache now session schedule0.id args hsn]
      try dsimp only
      rw [resolveProviderStep_cache_hit db cache now session schedule0.id args providerMap
        v hpn hcache hlookup hv]
    all_goals simp_all
  · intro action teamMap v hfind htype htn hcache hlookup hv
    rw [handleSystemToolCall_args_eq_core]
    unfold handleSystemToolCallCore
    rw [hfind]
    dsimp only
    split
    case h_3 =>
      rw [resolveTeamStep_cache_hit db cache now session args teamMap v htn hcache
        hlookup hv]
      try dsimp only
      rcases hcall : ex.processUpdateChatAction
          { type := "update_chat"
            config := { title := args.title, status := args.status, teamId := some v } }
          { args with team_id := some v } session with r | e
      · rfl
      · rfl
    all_goals simp_all
  · intro action flowMap v hfind htype hfn hcache hlookup hv
    rw [handleSystemToolCall_args_eq_core]
    unfold handleSystemToolCallCore
    rw [hfind]
    dsimp only
    split
    case h_4 =>
      rw [if_neg (by simp [hfn])]
      rw [resolveFlowStep_cache_hit db cache now session args flowMap v hcache
        hlookup hv]
      try dsimp only
      rcases hcall : ex.processStartFlowAction
          { type := "start_flow", config := { flowId := some v } }
          { args with flow_id := some v } session with r | e
      · rfl
      · rfl
    all_goals simp_all

/-- C10, witness: dispatching a schedule tool call with
`service_name: "Corte"` against a warm services cache writes the resolved
identifier onto the argument object's `service_id` slot. -/
theorem handleSystemToolCall_mutates_only_resolved_ids_witness :
    (handleSystemToolCall db0
      (setCachedMap [] "org1" .services [("corte", .s "svc1")] (some "s1") 1000)
      1500 ⟨"ag"⟩
      { operation := some "checkAvailability", date := some 3, service_name := some "Corte" }
      [{ name := "ag", type := "schedule", config := { schedule := some "s1" } }]
      session0 ex0).2.1.service_id = some (.s "svc1") :=
  (handleSystemToolCall_mutates_only_resolved_ids db0
      (setCachedMap [] "org1" .services [("corte", .s "svc1")] (some "s1") 1000)
      1500 ⟨"ag"⟩
      { operation := some "checkAvailability", date := some 3, service_name := some "Corte" }
      [{ name := "ag", type := "schedule", config := { schedule := some "s1" } }]
      session0 ex0).2.1
    { name := "ag", type := "schedule", config := { schedule := some "s1" } }
    sched0 [] [("corte", .s "svc1")] (.s "svc1")
    rfl rfl (by decide) rfl (by decide) rfl rfl rfl

/-! ## Claim C7 -/

/-- C7, counterexample: the claim says `transformToolName` returns every
string matching `[a-zA-Z0-9_-]+` unchanged, but the transformation
lower-cases letters and rewrites hyphens, so `"A"` and `"a-b"` match the
pattern yet are changed. -/
theorem transformToolName_not_identity_on_slug_pattern :
    matchesSlugPattern "A" = true ∧ transformToolName "A" ≠ "A" ∧
    matchesSlugPattern "a-b" = true ∧ transformToolName "a-b" ≠ "a-b" := by
  decide

/-- C7 (amended): `transformToolName` returns unchanged every string made
of lower-case letters, digits and underscores with no doubled underscore
and no underscore at either edge (its exact output form, so the function
is idempotent), and transforming `"Agendar Consulta!"` yields
`"agendar_consulta"`. -/
theorem transformToolName_idempotent_amended :
    (∀ s : String, slugFixedForm s = true → transformToolName s = s) ∧
    transformToolName "Agendar Consulta!" = "agendar_consulta" :=
  ⟨transformToolName_eq_self, by decide⟩

/-- C7, witness: the amended fixed-point statement applied at the concrete
slug `"agendar_consulta"`. -/
theorem transformToolName_idempotent_amended_witness :
    slugFixedForm "agendar_consulta" = true ∧
    transformToolName "agendar_consulta" = "agendar_consulta" :=
  ⟨by decide, transformToolName_idempotent_amended.1 "agendar_consulta" (by decide)⟩

/-! ## Claim C8 -/

/-- C8: the claim says every generated tool's name is the slugification of
the action's configured `name` field, for all four action types alike; but
`generateUpdateCustomerTool` reads `action.title` — absent on System
Action records — so an `update_customer` action named "Atualizar Cliente"
yields the constant tool name `"update_customer"` instead of the slug
`"atualizar_cliente"` of its display name. -/
theorem generateUpdateCustomerTool_uses_title_not_name :
    (generateUpdateCustomerTool
      { name := "Atualizar Cliente", type := "update_customer" }).name = "update_customer" ∧
    transformToolName "Atualizar Cliente" = "atualizar_cliente" ∧
    (generateUpdateCustomerTool
      { name := "Atualizar Cliente", type := "update_customer" }).name ≠
      transformToolName "Atualizar Cliente" := by
  decide

end AgentIA
